import Mathlib

/-!
Verification of the Simposter poster-rendering core
(`backend/templates/universal.py` and `backend/templates/uniformlogo.py`).

The Python code is shallowly embedded: images become a structure of width,
height, a pixel function and a colour mode; the flat options dictionary
becomes an association list of Python-like values; Python `float`s become
exact rationals (the claims under study never hinge on binary rounding);
fallible coercions (`float(x)`, `int(x)`, arithmetic on a non-number)
return `Except`, mirroring the exceptions CPython raises.  Pillow
operations are modelled per pixel from their documented semantics; where a
Pillow internal is irrelevant to every claim (Lanczos kernels, Gaussian
blurs, glyph rasterisation) the model says so in its doc comment.
-/

/-- Python `int(x)` on a rational: truncation toward zero. -/
def pyInt (q : ℚ) : ℤ := q.num.tdiv q.den

/-- Python `int(x)` of a quantity that is nonnegative at its use site,
returned as a natural number (Pillow sizes and coordinates). -/
def pyIntNat (q : ℚ) : ℕ := (pyInt q).toNat

/-- The `clamp(v, lo, hi)` helper defined inside `build_base_poster` and
`render_universal`: `max(lo, min(hi, v))`. -/
def pyClamp (v lo hi : ℚ) : ℚ := max lo (min hi v)

/-- A value held by the options mapping: Python numbers (ints and floats
collapsed to exact rationals), strings, and booleans. -/
inductive OptVal where
  | num (q : ℚ)
  | str (s : String)
  | boolean (b : Bool)
deriving DecidableEq

/-- The flat options mapping passed to every render call. -/
abbrev Options := List (String × OptVal)

/-- `options.get(key)`: the first binding of the key, when present. -/
def Options.get? (o : Options) (k : String) : Option OptVal :=
  match o with
  | [] => none
  | (k2, v) :: rest => if k2 = k then some v else Options.get? rest k

/-- Digits of a numeral string folded into a natural number. -/
def digitsVal (cs : List Char) : ℕ :=
  cs.foldl (fun a c => a * 10 + (c.toNat - 48)) 0

/-- Whether a character list is one or more decimal digits. -/
def allDigits (cs : List Char) : Bool :=
  !cs.isEmpty && cs.all (·.isDigit)

/-- Power of ten with an integer exponent, executable on ℚ. -/
def pow10 (e : ℤ) : ℚ :=
  if 0 ≤ e then ((10 ^ e.toNat : ℕ) : ℚ) else 1 / ((10 ^ (-e).toNat : ℕ) : ℚ)

/-- The mantissa of a Python float literal: digits with an optional decimal
point (`"12"`, `"1.5"`, `".5"`, `"1."`). -/
def parseMantissa (s : String) : Option ℚ :=
  match s.splitOn "." with
  | [i] => if allDigits i.toList then some ((digitsVal i.toList : ℕ) : ℚ) else none
  | [i, f] =>
    if (i.toList.all (·.isDigit)) && (f.toList.all (·.isDigit))
        && !(i.isEmpty && f.isEmpty) then
      some (((digitsVal (i.toList ++ f.toList) : ℕ) : ℚ) / ((10 ^ f.length : ℕ) : ℚ))
    else none
  | _ => none

/-- An optionally signed digit string, as the exponent part of a float
literal. -/
def parseSignedDigits (s : String) : Option ℤ :=
  let (sg, t) := if s.startsWith "-" then ((-1 : ℤ), s.drop 1)
    else if s.startsWith "+" then (1, s.drop 1) else (1, s)
  if allDigits t.toList then some (sg * (digitsVal t.toList : ℕ)) else none

/-- Python `float(string)` on the numeral strings the options carry:
surrounding whitespace, an optional sign, a decimal mantissa and an
optional exponent.  (Python additionally accepts `"inf"`, `"nan"` and
digit-group underscores; those are not representable here and never occur
in the options under study — every string this parser rejects that Python
would accept denotes no finite decimal.) -/
def parseFloatStr (s : String) : Option ℚ := do
  let t := s.trim
  let (sg, u) := if t.startsWith "-" then ((-1 : ℚ), t.drop 1)
    else if t.startsWith "+" then ((1 : ℚ), t.drop 1) else ((1 : ℚ), t)
  let lower := u.map Char.toLower
  match lower.splitOn "e" with
  | [m] => do
    let q ← parseMantissa m
    pure (sg * q)
  | [m, ex] => do
    let q ← parseMantissa m
    let e ← parseSignedDigits ex
    pure (sg * q * pow10 e)
  | _ => none

/-- Python `int(string)`: optional whitespace and sign around digits only
(`int("1.5")` raises). -/
def parseIntStr (s : String) : Option ℤ := parseSignedDigits s.trim

/-- Read an option through Python `float()` (as `universal.py` does for
every numeric knob, e.g. lines 448-455): a missing key takes the default,
numbers pass through, booleans coerce to 0/1, and a string must parse as a
numeral — otherwise `float()` raises `ValueError` and the render aborts. -/
def getFloat (o : Options) (k : String) (d : ℚ) : Except String ℚ :=
  match o.get? k with
  | none => .ok d
  | some (.num q) => .ok q
  | some (.boolean b) => .ok (if b then 1 else 0)
  | some (.str s) =>
    match parseFloatStr s with
    | some q => .ok q
    | none => .error ("could not convert string to float: " ++ s)

/-- Read an option through Python `int()` (e.g. `font_size`, `border_px`):
numbers truncate toward zero, booleans coerce, and a non-integer string
raises `ValueError`. -/
def getInt (o : Options) (k : String) (d : ℤ) : Except String ℤ :=
  match o.get? k with
  | none => .ok d
  | some (.num q) => .ok (pyInt q)
  | some (.boolean b) => .ok (if b then 1 else 0)
  | some (.str s) =>
    match parseIntStr s with
    | some n => .ok n
    | none => .error ("invalid literal for int: " ++ s)

/-- Read an option used directly in arithmetic with no coercion
(`uniformlogo.py` lines 37-41, 62-63, 88): numbers and booleans work as
Python numbers; a string makes the arithmetic raise `TypeError`. -/
def getNum (o : Options) (k : String) (d : ℚ) : Except String ℚ :=
  match o.get? k with
  | none => .ok d
  | some (.num q) => .ok q
  | some (.boolean b) => .ok (if b then 1 else 0)
  | some (.str _) => .error "TypeError: unsupported operand type"

/-- Python truthiness of an option value. -/
def truthy (v : OptVal) : Bool :=
  match v with
  | .num q => q ≠ 0
  | .str s => s ≠ ""
  | .boolean b => b

/-- `bool(options.get(key, default))`: total, never raises. -/
def getTruthy (o : Options) (k : String) (d : Bool) : Bool :=
  match o.get? k with
  | none => d
  | some v => truthy v

/-- Python `str(value)`.  The numeric repr is approximate (only its
emptiness — hence truthiness — matters to the code under study). -/
def pyStrOf (v : OptVal) : String :=
  match v with
  | .str s => s
  | .boolean b => if b then "True" else "False"
  | .num q => if q.den = 1 then toString q.num ++ ".0"
    else toString q.num ++ "/" ++ toString q.den

/-- `str(options.get(key, default) or default)` as `render_universal`
lines 543-544 read `logo_mode` and `logo_hex`: a falsy stored value falls
back to the default before `str()`. -/
def getStrOr (o : Options) (k : String) (d : String) : String :=
  let v := (o.get? k).getD (.str d)
  if truthy v then pyStrOf v else d

/-- `str(options.get(key, default))` with no falsy fallback
(`custom_text`, `font_family`, ...). -/
def getStrPlain (o : Options) (k : String) (d : String) : String :=
  pyStrOf ((o.get? k).getD (.str d))

/-- An option whose raw value is passed to a string method
(`_hex_to_rgb(options.get("border_color", ...)).lstrip` — a non-string
value raises `AttributeError`). -/
def getStrExc (o : Options) (k : String) (d : String) : Except String String :=
  match o.get? k with
  | none => .ok d
  | some (.str s) => .ok s
  | some _ => .error "AttributeError: lstrip"

/-- The value of one hexadecimal digit, when the character is one. -/
def hexDigit (c : Char) : Option ℕ :=
  if c.isDigit then some (c.toNat - 48)
  else if 97 ≤ c.toNat && c.toNat ≤ 102 then some (c.toNat - 87)
  else if 65 ≤ c.toNat && c.toNat ≤ 70 then some (c.toNat - 55)
  else none

/-- Two hex digits of a string starting at an index, as one channel. -/
def hexPair (cs : List Char) (i : ℕ) : Option ℕ := do
  let hi ← (cs[i]?).bind hexDigit
  let lo ← (cs[i+1]?).bind hexDigit
  pure (hi * 16 + lo)

/-- `_hex_to_rgb` (universal.py lines 106-114): strip leading `#`; any
string whose remainder is not 6 characters yields white; `int(h, 16)` on a
non-hex pair raises `ValueError`. -/
def hex_to_rgb (s : String) : Except String (ℕ × ℕ × ℕ) :=
  let h := s.dropWhile (· = '#')
  if h.length ≠ 6 then .ok (255, 255, 255)
  else
    match hexPair h.toList 0, hexPair h.toList 2, hexPair h.toList 4 with
    | some r, some g, some b => .ok (r, g, b)
    | _, _, _ => .error "invalid literal for int with base 16"

/-- A Pillow colour mode as used by the templates. -/
inductive Mode where
  | RGB
  | RGBA
  | L
deriving DecidableEq

/-- One pixel, four 8-bit channels (an L-mode image keeps its value in
every colour channel with alpha 255; an RGB image carries alpha 255). -/
structure Pixel where
  r : ℕ
  g : ℕ
  b : ℕ
  a : ℕ
deriving DecidableEq

/-- An in-memory image: dimensions, a (total, lazily evaluated) pixel
function, and a mode.  Every operation below returns a fresh value. -/
structure Img where
  width : ℕ
  height : ℕ
  px : ℕ → ℕ → Pixel
  mode : Mode

/-- A fully transparent black pixel (what Pillow pads with outside crop
bounds). -/
def clearPx : Pixel := ⟨0, 0, 0, 0⟩

/-- `Image.new(mode, (w, h), color)`. -/
def Image.new (m : Mode) (w h : ℕ) (c : Pixel) : Img :=
  ⟨w, h, fun _ _ => c, m⟩

/-- `img.convert(mode)` for the mode pairs the templates use: dropping to
RGB discards alpha (no compositing), RGB→RGBA gains alpha 255, L
replicates its value into the colour channels. -/
def Img.convert (img : Img) (m : Mode) : Img :=
  { width := img.width, height := img.height, mode := m,
    px := fun x y =>
      let p := img.px x y
      match img.mode, m with
      | .RGBA, .RGBA => p
      | _, .RGB => ⟨p.r, p.g, p.b, 255⟩
      | _, .RGBA => ⟨p.r, p.g, p.b, 255⟩
      | _, .L => ⟨p.r, p.r, p.r, 255⟩ }

/-- Sum of `f 0 + ... + f (n-1)`. -/
def sumRange (n : ℕ) (f : ℕ → ℕ) : ℕ :=
  (List.range n).foldl (fun a k => a + f k) 0

/-- Mean of a channel over a source box (used by the resize model). -/
def boxMean (img : Img) (ch : Pixel → ℕ) (x0 y0 cw chh : ℕ) : ℕ :=
  sumRange chh (fun dy => sumRange cw (fun dx => ch (img.px (x0 + dx) (y0 + dy))))
    / max 1 (cw * chh)

/-- `img.resize((tw, th), Image.LANCZOS)`.  Output dimensions are exact;
the resampled pixel content is modelled as the box mean of the source
region each target pixel covers (the Lanczos kernel weighting is a Pillow
internal no claim under study depends on; for a 1×1 target this model, like
Pillow, yields a single average colour, and resizing to the same size is
the identity). -/
def Img.resize (img : Img) (tw th : ℕ) : Img :=
  { width := tw, height := th, mode := img.mode,
    px := fun i j =>
      let x0 := i * img.width / tw
      let y0 := j * img.height / th
      let x1 := max (x0 + 1) ((i + 1) * img.width / tw)
      let y1 := max (y0 + 1) ((j + 1) * img.height / th)
      ⟨boxMean img Pixel.r x0 y0 (x1 - x0) (y1 - y0),
       boxMean img Pixel.g x0 y0 (x1 - x0) (y1 - y0),
       boxMean img Pixel.b x0 y0 (x1 - x0) (y1 - y0),
       boxMean img Pixel.a x0 y0 (x1 - x0) (y1 - y0)⟩ }

/-- `img.crop((l, t, r, b))`: always exactly `(r-l)×(b-t)` pixels, padding
with empty pixels where the box leaves the source. -/
def Img.crop (img : Img) (l t r b : ℤ) : Img :=
  { width := (r - l).toNat, height := (b - t).toNat, mode := img.mode,
    px := fun i j =>
      let X := l + (i : ℤ)
      let Y := t + (j : ℤ)
      if 0 ≤ X ∧ X < (img.width : ℤ) ∧ 0 ≤ Y ∧ Y < (img.height : ℤ) then
        img.px X.toNat Y.toNat
      else clearPx }

/-- `dst.paste(src, (x, y))` with no mask: opaque overwrite of the covered
region (the source is converted to the destination mode). -/
def Img.pasteAt (dst src : Img) (x y : ℤ) : Img :=
  { width := dst.width, height := dst.height, mode := dst.mode,
    px := fun i j =>
      if x ≤ (i : ℤ) ∧ (i : ℤ) < x + src.width ∧ y ≤ (j : ℤ) ∧ (j : ℤ) < y + src.height then
        (src.convert dst.mode).px ((i : ℤ) - x).toNat ((j : ℤ) - y).toNat
      else dst.px i j }

/-- One channel of Pillow's mask blend `in1*(m/255) + in2*(1-m/255)`; exact
at mask 0 and mask 255, which is all the claims exercise. -/
def maskBlendChan (c1 c2 m : ℕ) : ℕ := (c1 * m + c2 * (255 - m) + 127) / 255

/-- Blend two pixels by a mask value (every channel, alpha included). -/
def maskBlendPix (p1 p2 : Pixel) (m : ℕ) : Pixel :=
  ⟨maskBlendChan p1.r p2.r m, maskBlendChan p1.g p2.g m,
   maskBlendChan p1.b p2.b m, maskBlendChan p1.a p2.a m⟩

/-- `Image.composite(im1, im2, mask)`: `im1` where the L-mode mask is 255,
`im2` where it is 0, blended between. -/
def Image.composite (im1 im2 mask : Img) : Img :=
  { width := im2.width, height := im2.height, mode := im2.mode,
    px := fun x y => maskBlendPix (im1.px x y) (im2.px x y) ((mask.px x y).r) }

/-- `dst.paste(src, (x, y), mask)`: the covered region blends by the
mask's alpha channel (`render_uniform_logo` passes the RGBA logo as its
own mask); pixels outside the region are untouched. -/
def Img.pasteMaskAt (dst src mask : Img) (x y : ℤ) : Img :=
  { width := dst.width, height := dst.height, mode := dst.mode,
    px := fun i j =>
      if x ≤ (i : ℤ) ∧ (i : ℤ) < x + src.width ∧ y ≤ (j : ℤ) ∧ (j : ℤ) < y + src.height then
        let sx := ((i : ℤ) - x).toNat
        let sy := ((j : ℤ) - y).toNat
        maskBlendPix (src.px sx sy) (dst.px i j) ((mask.px sx sy).a)
      else dst.px i j }

/-- Round a rational to the nearest natural (Pillow's float compositing
rounds its result back to 8 bits; the endpoint cases the claims exercise
are exact). -/
def rndNat (q : ℚ) : ℕ := (round q).toNat

/-- Porter-Duff source-over of one source pixel onto one destination
pixel, as `Image.alpha_composite` computes it. -/
def overPix (src dst : Pixel) : Pixel :=
  let aS : ℚ := (src.a : ℚ) / 255
  let aD : ℚ := (dst.a : ℚ) / 255
  let aO : ℚ := aS + aD * (1 - aS)
  if aO = 0 then clearPx
  else
    ⟨rndNat (((src.r : ℚ) * aS + (dst.r : ℚ) * aD * (1 - aS)) / aO),
     rndNat (((src.g : ℚ) * aS + (dst.g : ℚ) * aD * (1 - aS)) / aO),
     rndNat (((src.b : ℚ) * aS + (dst.b : ℚ) * aD * (1 - aS)) / aO),
     rndNat (255 * aO)⟩

/-- `canvas.alpha_composite(src, (x, y))` (in-place form with a
non-negative destination offset): source-over inside the covered region. -/
def Img.alphaCompositeAt (dst src : Img) (x y : ℕ) : Img :=
  { width := dst.width, height := dst.height, mode := dst.mode,
    px := fun i j =>
      if x ≤ i ∧ i < x + src.width ∧ y ≤ j ∧ j < y + src.height then
        overPix (src.px (i - x) (j - y)) (dst.px i j)
      else dst.px i j }

/-- `Image.alpha_composite(im1, im2)`: `im2` laid over `im1`, full frame. -/
def Image.alphaCompositeFull (im1 im2 : Img) : Img :=
  { width := im1.width, height := im1.height, mode := im1.mode,
    px := fun x y => overPix (im2.px x y) (im1.px x y) }

/-- `Image.blend(im1, im2, alpha)`: linear interpolation of every channel. -/
def Image.blend (im1 im2 : Img) (alpha : ℚ) : Img :=
  { width := im1.width, height := im1.height, mode := im1.mode,
    px := fun x y =>
      let p1 := im1.px x y
      let p2 := im2.px x y
      ⟨rndNat ((p1.r : ℚ) * (1 - alpha) + (p2.r : ℚ) * alpha),
       rndNat ((p1.g : ℚ) * (1 - alpha) + (p2.g : ℚ) * alpha),
       rndNat ((p1.b : ℚ) * (1 - alpha) + (p2.b : ℚ) * alpha),
       rndNat ((p1.a : ℚ) * (1 - alpha) + (p2.a : ℚ) * alpha)⟩ }

/-- `img.putalpha(mask)`: install an L-mode band as the alpha channel. -/
def Img.putalpha (img mask : Img) : Img :=
  { width := img.width, height := img.height, mode := .RGBA,
    px := fun x y =>
      let p := img.px x y
      ⟨p.r, p.g, p.b, (mask.px x y).r⟩ }

/-- `ImageChops.subtract(a, b)`: channel difference clamped at zero. -/
def Image.subtract (a b : Img) : Img :=
  { width := a.width, height := a.height, mode := a.mode,
    px := fun x y =>
      let p := a.px x y
      let q := b.px x y
      ⟨p.r - q.r, p.g - q.g, p.b - q.b, p.a - q.a⟩ }

/-- `ImageOps.expand(img, border, fill)`: a border of the fill colour on
all four sides; the result is `(w+2b)×(h+2b)`. -/
def Image.expand (img : Img) (b : ℕ) (fill : Pixel) : Img :=
  { width := img.width + 2 * b, height := img.height + 2 * b, mode := img.mode,
    px := fun i j =>
      if b ≤ i ∧ i < b + img.width ∧ b ≤ j ∧ j < b + img.height then
        img.px (i - b) (j - b)
      else fill }

/-- Mean filter with a clamped square window, the model used for
`ImageFilter.GaussianBlur` (the Gaussian weights are a Pillow internal;
no claim under study depends on blurred pixel content). -/
def Img.boxBlur (img : Img) (r : ℕ) : Img :=
  { width := img.width, height := img.height, mode := img.mode,
    px := fun x y =>
      let x0 := x - r
      let y0 := y - r
      let x1 := min img.width (x + r + 1)
      let y1 := min img.height (y + r + 1)
      ⟨boxMean img Pixel.r x0 y0 (x1 - x0) (y1 - y0),
       boxMean img Pixel.g x0 y0 (x1 - x0) (y1 - y0),
       boxMean img Pixel.b x0 y0 (x1 - x0) (y1 - y0),
       boxMean img Pixel.a x0 y0 (x1 - x0) (y1 - y0)⟩ }

/-- `ImageDraw.rounded_rectangle` filling an L-mode mask: 255 inside the
box whose corners are rounded with the given radius, 0 outside (corner
membership is the exact quarter-disc test; Pillow's rasterisation of the
boundary is modelled geometrically). -/
def roundedRectMask (w h : ℕ) (x0 y0 x1 y1 radius : ℕ) : Img :=
  { width := w, height := h, mode := .L,
    px := fun x y =>
      let inBox := x0 ≤ x ∧ x ≤ x1 ∧ y0 ≤ y ∧ y ≤ y1
      let cornerOk :=
        ((x0 + radius ≤ x ∨ y0 + radius ≤ y) ∨
          (x0 + radius - x) ^ 2 + (y0 + radius - y) ^ 2 ≤ radius ^ 2) ∧
        ((x ≤ x1 - radius ∨ y0 + radius ≤ y) ∨
          (x - (x1 - radius)) ^ 2 + (y0 + radius - y) ^ 2 ≤ radius ^ 2) ∧
        ((x0 + radius ≤ x ∨ y ≤ y1 - radius) ∨
          (x0 + radius - x) ^ 2 + (y - (y1 - radius)) ^ 2 ≤ radius ^ 2) ∧
        ((x ≤ x1 - radius ∨ y ≤ y1 - radius) ∨
          (x - (x1 - radius)) ^ 2 + (y - (y1 - radius)) ^ 2 ≤ radius ^ 2)
      if inBox ∧ cornerOk then ⟨255, 255, 255, 255⟩ else ⟨0, 0, 0, 255⟩ }

/-- `_resize_cover` (universal.py lines 15-38): cover-fit scale with an
extra zoom floored at 0.01, then a centred crop of exactly the target
size; a zero-dimension source stretches straight to the target. -/
def resize_cover (img : Img) (target_w target_h : ℕ) (zoom : ℚ) : Img :=
  if img.width = 0 ∨ img.height = 0 then img.resize target_w target_h
  else
    let base_scale : ℚ := max ((target_w : ℚ) / img.width) ((target_h : ℚ) / img.height)
    let scale := base_scale * max zoom (1 / 100)
    let new_w := pyIntNat ((img.width : ℚ) * scale)
    let new_h := pyIntNat ((img.height : ℚ) * scale)
    let resized := img.resize new_w new_h
    let x : ℤ := max 0 (((new_w : ℤ) - target_w) / 2)
    let y : ℤ := max 0 (((new_h : ℤ) - target_h) / 2)
    resized.crop x y (x + target_w) (y + target_h)

/-- The mask value `_add_vignette` (universal.py lines 41-62) paints at a
point: sixty concentric discs of growing radius and alpha are drawn in
order, so the last — largest — disc containing the point wins. -/
def vignetteMaskVal (w h : ℕ) (strength : ℚ) (x y : ℕ) : ℕ :=
  let max_r : ℚ := (max w h : ℕ)
  (List.range 60).foldl
    (fun acc i =>
      let r := max_r * ((i : ℚ) / 60)
      if ((x : ℚ) - (w : ℚ) / 2) ^ 2 + ((y : ℚ) - (h : ℚ) / 2) ^ 2 ≤ r ^ 2 then
        pyIntNat (255 * strength * ((i : ℚ) / 60))
      else acc) 0

/-- `_add_vignette` (universal.py lines 41-62): short-circuit at
strength ≤ 0, else composite black through the blurred ring mask. -/
def add_vignette (img : Img) (strength : ℚ) : Img :=
  if strength ≤ 0 then img
  else
    let rgb := img.convert .RGB
    let vig : Img :=
      { width := rgb.width, height := rgb.height, mode := .L,
        px := fun x y =>
          let v := vignetteMaskVal rgb.width rgb.height strength x y
          ⟨v, v, v, 255⟩ }
    let vigB := vig.boxBlur 90
    let black := Image.new .RGB rgb.width rgb.height ⟨0, 0, 0, 255⟩
    Image.composite black rgb vigB

/-- `_add_grain` (universal.py lines 66-81): no-op at amount ≤ 0, else
blend a blurred mid-grey noise field into the image.  `np.random.uniform`
is modelled by a caller-supplied value stream (the spec itself notes grain
is distribution- not byte-reproducible). -/
def add_grain (img : Img) (amount : ℚ) (noise : ℕ → ℕ → ℤ) : Img :=
  if amount ≤ 0 then img
  else
    let rgb := img.convert .RGB
    let field : Img :=
      { width := rgb.width, height := rgb.height, mode := .L,
        px := fun x y =>
          let v := (max 0 (min 255 (128 + noise x y))).toNat
          ⟨v, v, v, 255⟩ }
    let blurred := field.boxBlur 1
    Image.blend rgb (blurred.convert .RGB) amount

/-- `_solid_color_logo` (universal.py lines 117-133): every pixel's colour
channels become the given colour while the alpha band of the
RGBA-converted logo is kept unchanged. -/
def solid_color_logo (logo : Img) (color : ℕ × ℕ × ℕ) : Img :=
  let l := logo.convert .RGBA
  { width := l.width, height := l.height, mode := .RGBA,
    px := fun x y => ⟨color.1, color.2.1, color.2.2, (l.px x y).a⟩ }

/-- The single colour `render_universal` line 558 computes for `match`
recoloring: the background downsampled to one pixel. -/
def posterAvgColor (bg : Img) : ℕ × ℕ × ℕ :=
  let p := (bg.resize 1 1).px 0 0
  (p.r, p.g, p.b)

/-- The character fallback inside `wrap_line` (universal.py lines
287-294): grow the current line while it still fits, else flush it and
start over from this character. -/
def wrapCharStep (measure : String → ℕ) (max_width : ℕ)
    (st : List String × String) (ch : Char) : List String × String :=
  let test2 := st.2.push ch
  if measure test2 ≤ max_width then (st.1, test2)
  else if st.2 ≠ "" then (st.1 ++ [st.2], String.singleton ch)
  else (st.1, String.singleton ch)

/-- One word of `wrap_line`'s greedy loop (universal.py lines 272-296):
append while fitting; flush the current line when the word will not join
it; break a word character by character only when it exceeds the width on
its own with nothing accumulated. -/
def wrapWordStep (measure : String → ℕ) (max_width : ℕ)
    (st : List String × String) (word : String) : List String × String :=
  let test := st.2 ++ (if st.2 ≠ "" then " " else "") ++ word
  if measure test ≤ max_width then (st.1, test)
  else if st.2 ≠ "" then (st.1 ++ [st.2], word)
  else if max_width < measure word then
    word.toList.foldl (wrapCharStep measure max_width) st
  else (st.1, word)

/-- `wrap_line` (universal.py lines 258-301), parametric in the enclosing
`measure_text_width` closure: an empty line is kept; a fitting line is
returned whole; otherwise the words are packed greedily. -/
def wrap_line (measure : String → ℕ) (max_width : ℕ) (line : String) : List String :=
  if line = "" then [""]
  else if measure line ≤ max_width then [line]
  else
    let fin := (line.splitOn " ").foldl (wrapWordStep measure max_width) ([], "")
    let wrapped := if fin.2 ≠ "" then fin.1 ++ [fin.2] else fin.1
    if wrapped = [] then [""] else wrapped

/-- `apply_letter_spacing` (universal.py lines 246-249): each character
followed by `letter_spacing` spaces, trailing spaces stripped. -/
def applyLetterSpacing (spacing : ℤ) (line : String) : String :=
  if 0 < spacing then
    (String.join (line.toList.map
      (fun c => String.singleton c ++ String.mk (List.replicate spacing.toNat ' ')))).dropRightWhile (· = ' ')
  else line

/-- Modelled advance width of one glyph: font metrics live inside Pillow's
font objects, which are outside this embedding; a fixed per-character
advance of three-fifths of the font size stands in.  Every claim about the
text engine is either parametric in the measure (`wrap_line`) or
independent of glyph pixels. -/
def glyphAdvance (font_size : ℤ) : ℕ := (font_size.toNat * 3) / 5

/-- `measure_text_width` (universal.py lines 252-255): width of the
letter-spaced line under the modelled metrics. -/
def measureTextWidth (font_size spacing : ℤ) (line : String) : ℕ :=
  (applyLetterSpacing spacing line).length * glyphAdvance font_size

/-- Python `str.title()` as `text_transform = "capitalize"` applies it:
uppercase a letter that follows a non-letter, lowercase the rest. -/
def pyTitle (s : String) : String :=
  (s.toList.foldl
    (fun (st : List Char × Bool) c =>
      let isAlpha := c.isAlpha
      let c2 := if isAlpha ∧ ¬ st.2 then c.toUpper else if isAlpha then c.toLower else c
      (st.1 ++ [c2], isAlpha)) ([], false)).1.foldl (fun acc c => acc.push c) ""

/-- The text options `_render_text_overlay` coerces up front
(universal.py lines 198-222), read in source order so the first malformed
value is the one that raises. -/
structure TextOpts where
  fontFamily : String
  fontSize : ℤ
  fontWeight : String
  textColor : ℕ × ℕ × ℕ
  textAlign : String
  textTransform : String
  letterSpacing : ℤ
  lineHeight : ℚ
  positionY : ℚ
  shadowEnabled : Bool
  shadowBlur : ℤ
  shadowOffsetX : ℤ
  shadowOffsetY : ℤ
  shadowColor : ℕ × ℕ × ℕ
  shadowOpacity : ℚ
  strokeEnabled : Bool
  strokeWidth : ℤ
  strokeColor : ℕ × ℕ × ℕ
  movieTitle : String
  movieYear : String

/-- Coerce the text-overlay options in the order the Python reads them. -/
def parseTextOpts (o : Options) : Except String TextOpts := do
  let fontFamily := getStrPlain o "font_family" "Arial"
  let fontSize ← getInt o "font_size" 120
  let fontWeight := getStrPlain o "font_weight" "700"
  let tc ← getStrExc o "text_color" "#ffffff"
  let textColor ← hex_to_rgb tc
  let textAlign := getStrPlain o "text_align" "center"
  let textTransform := getStrPlain o "text_transform" "uppercase"
  let letterSpacing ← getInt o "letter_spacing" 2
  let lineHeight ← getFloat o "line_height" 1.2
  let positionY ← getFloat o "position_y" 0.75
  let shadowEnabled := getTruthy o "shadow_enabled" true
  let shadowBlur ← getInt o "shadow_blur" 10
  let shadowOffsetX ← getInt o "shadow_offset_x" 0
  let shadowOffsetY ← getInt o "shadow_offset_y" 4
  let sc ← getStrExc o "shadow_color" "#000000"
  let shadowColor ← hex_to_rgb sc
  let shadowOpacity ← getFloat o "shadow_opacity" 0.8
  let strokeEnabled := getTruthy o "stroke_enabled" false
  let strokeWidth ← getInt o "stroke_width" 4
  let kc ← getStrExc o "stroke_color" "#000000"
  let strokeColor ← hex_to_rgb kc
  let movieTitle := getStrPlain o "movie_title" ""
  let movieYear := getStrPlain o "movie_year" ""
  pure ⟨fontFamily, fontSize, fontWeight, textColor, textAlign, textTransform,
    letterSpacing, lineHeight, positionY, shadowEnabled, shadowBlur,
    shadowOffsetX, shadowOffsetY, shadowColor, shadowOpacity, strokeEnabled,
    strokeWidth, strokeColor, movieTitle, movieYear⟩

/-- Python `str.replace` for the `{title}` / `{year}` template variables. -/
def pyReplace (s pat rep : String) : String :=
  String.intercalate rep (s.splitOn pat)

/-- One laid-out line: its text, x position and y position inside the
padded text layer. -/
structure LaidLine where
  text : String
  x : ℤ
  y : ℤ

/-- The glyph pixels of the text layer.  Rasterising outlines is Pillow's
job; the model paints each laid-out line's bounding box with the fill
colour (no claim under study reads glyph pixel content). -/
def textLayerPx (lines : List LaidLine) (adv : ℕ) (fh : ℕ)
    (color : ℕ × ℕ × ℕ) (x y : ℕ) : Pixel :=
  if lines.any (fun L =>
      L.x ≤ (x : ℤ) ∧ (x : ℤ) < L.x + (L.text.length * adv : ℕ) ∧
      L.y ≤ (y : ℤ) ∧ (y : ℤ) < L.y + (fh : ℕ)) then
    ⟨color.1, color.2.1, color.2.2, 255⟩
  else clearPx

/-- The body of `_render_text_overlay` after its option coercions
(universal.py lines 221-419): substitute variables, transform case, wrap,
lay the lines out in a padded RGBA layer, crop the layer back to the
canvas frame and alpha-composite it on. -/
def textPipeline (canvas : Img) (text0 : String) (t : TextOpts) : Img :=
  let W := canvas.width
  let H := canvas.height
  let text1 := pyReplace (pyReplace text0 "{title}" t.movieTitle) "{year}" t.movieYear
  let text2 :=
    if t.textTransform = "uppercase" then text1.map Char.toUpper
    else if t.textTransform = "lowercase" then text1.map Char.toLower
    else if t.textTransform = "capitalize" then pyTitle text1
    else text1
  let measure := measureTextWidth t.fontSize t.letterSpacing
  let max_text_width := W - 200
  let wrapped := (text2.splitOn "\n").flatMap (wrap_line measure max_text_width)
  let adv := glyphAdvance t.fontSize
  let lineH := t.fontSize.toNat
  let total_height : ℤ := (wrapped.length * lineH : ℕ)
    + pyInt ((t.fontSize : ℚ) * (t.lineHeight - 1)) * ((wrapped.length : ℤ) - 1)
  let y_pos : ℤ := pyInt ((H : ℚ) * t.positionY - (total_height : ℚ) / 2)
  let padding : ℤ := max (t.shadowBlur + |t.shadowOffsetX| + |t.shadowOffsetY|) t.strokeWidth + 50
  let laid := (wrapped.foldl
    (fun (st : List LaidLine × ℤ) line =>
      let spaced := applyLetterSpacing t.letterSpacing line
      let lw := measure line
      let x_pos : ℤ :=
        if t.textAlign = "center" then ((W : ℤ) - lw) / 2 + padding
        else if t.textAlign = "right" then (W : ℤ) - lw - 100 + padding
        else 100 + padding
      (st.1 ++ [⟨spaced, x_pos, st.2⟩],
       st.2 + lineH + pyInt ((t.fontSize : ℚ) * (t.lineHeight - 1))))
    ([], y_pos + padding)).1
  let layer : Img :=
    { width := W + 2 * padding.toNat, height := H + 2 * padding.toNat, mode := .RGBA,
      px := fun x y => textLayerPx laid adv lineH t.textColor x y }
  let cropped := layer.crop padding padding ((W : ℤ) + padding) ((H : ℤ) + padding)
  Image.alphaCompositeFull (canvas.convert .RGBA) cropped

/-- `_render_text_overlay` (universal.py lines 180-419): blank text is a
no-op before any option is read; otherwise coerce the options (any
malformed one raises) and run the layout pipeline. -/
def render_text_overlay (canvas : Img) (text : String) (o : Options) :
    Except String Img :=
  if text.trim = "" then .ok canvas
  else (parseTextOpts o).map (textPipeline canvas text)

/-- The base-poster options `build_base_poster` coerces and clamps
(universal.py lines 448-468 and 509), in source order. -/
structure BaseOpts where
  posterZoom : ℚ
  posterShiftY : ℚ
  matteFrac : ℚ
  fadeFrac : ℚ
  vignetteStrength : ℚ
  grainAmount : ℚ
  washStrength : ℚ

/-- Coerce/clamp the base options.  `poster_zoom` is floored at 0.1 (line
461); the two band fractions are clamped to [0, 0.5], vignette to [0, 1],
grain to [0, 0.6]; `v12_wash_strength` (line 509) is read unclamped. -/
def parseBaseOpts (o : Options) : Except String BaseOpts := do
  let pz ← getFloat o "poster_zoom" 1
  let psy ← getFloat o "poster_shift_y" 0
  let mr ← getFloat o "matte_height_ratio" 0
  let fr ← getFloat o "fade_height_ratio" 0
  let vs ← getFloat o "vignette_strength" 0
  let ga ← getFloat o "grain_amount" 0
  let wash ← getFloat o "v12_wash_strength" 0
  pure ⟨max pz (1/10), pyClamp psy (-(1/2)) (1/2), pyClamp mr 0 (1/2),
    pyClamp fr 0 (1/2), pyClamp vs 0 1, pyClamp ga 0 (6/10), wash⟩

/-- The matte + fade stage (universal.py lines 477-500): build a row-mask
that is 255 from `matte_start` down, ramps 0→255 over the fade band, and
is 0 above, then composite opaque black through it; when both bands are
empty the stage is skipped and the canvas passes through untouched.
(Called with fractions already clamped to [0, 0.5].) -/
def matteFadeStage (base : Img) (matteFrac fadeFrac : ℚ) : Img :=
  let canvas_w := base.width
  let canvas_h := base.height
  let matte_h := pyIntNat ((canvas_h : ℚ) * matteFrac)
  let fade_h := pyIntNat ((canvas_h : ℚ) * fadeFrac)
  if 0 < matte_h ∨ 0 < fade_h then
    let matte_start := canvas_h - matte_h
    let fade_start := matte_start - fade_h
    let alphaAt : ℕ → ℕ := fun y =>
      if matte_start ≤ y then 255
      else if fade_start ≤ y then
        pyIntNat (255 * (((y - fade_start : ℕ) : ℚ) / (max fade_h 1 : ℕ)))
      else 0
    let mask : Img :=
      { width := canvas_w, height := canvas_h, mode := .L,
        px := fun _ y => let a := alphaAt y; ⟨a, a, a, 255⟩ }
    let black := Image.new .RGBA canvas_w canvas_h ⟨0, 0, 0, 255⟩
    Image.composite black base mask
  else base

/-- The pixel pipeline of `build_base_poster` (universal.py lines
470-515) once the options are coerced: black 2000×3000 RGBA canvas,
cover-fit paste of the background with the vertical shift, matte+fade,
vignette, grain, wash, and a final RGBA conversion. -/
def basePipeline (background : Img) (noise : ℕ → ℕ → ℤ) (o : BaseOpts) : Img :=
  let canvas_w := 2000
  let canvas_h := 3000
  let base := Image.new .RGBA canvas_w canvas_h ⟨0, 0, 0, 255⟩
  let poster := resize_cover background canvas_w canvas_h o.posterZoom
  let shift_px := pyInt (o.posterShiftY * (canvas_h : ℚ))
  let base := base.pasteAt poster 0 shift_px
  let base := matteFadeStage base o.matteFrac o.fadeFrac
  let base_rgb := base.convert .RGB
  let base_rgb := if 0 < o.vignetteStrength then add_vignette base_rgb o.vignetteStrength else base_rgb
  let base_rgb := add_grain base_rgb o.grainAmount noise
  let base_rgb :=
    if 0 < o.washStrength then
      Image.blend base_rgb (Image.new .RGB canvas_w canvas_h ⟨32, 32, 32, 255⟩) o.washStrength
    else base_rgb
  base_rgb.convert .RGBA

/-- `build_base_poster` (universal.py lines 426-515): coerce the options
(the first malformed numeric option raises `ValueError` and aborts), then
run the pure pixel pipeline. -/
def build_base_poster (background : Img) (o : Options) (noise : ℕ → ℕ → ℤ) :
    Except String Img :=
  (parseBaseOpts o).map (basePipeline background noise)

/-- The logo options `render_universal` coerces and clamps (universal.py
lines 540-550): scale clamped to [0.1, 1], offset to [0, 1]; mode and hex
are read through `str(... or default)`. -/
structure ULogoOpts where
  logoScale : ℚ
  logoOffset : ℚ
  logoMode : String
  logoHex : String

/-- Coerce/clamp the universal-template logo options in source order. -/
def parseULogoOpts (o : Options) : Except String ULogoOpts := do
  let ls ← getFloat o "logo_scale" (1/2)
  let lo ← getFloat o "logo_offset" (3/4)
  pure ⟨pyClamp ls (1/10) 1, pyClamp lo 0 1,
    getStrOr o "logo_mode" "stock", getStrOr o "logo_hex" "#FFFFFF"⟩

/-- The placement numbers of `render_universal`'s proportional logo step
(universal.py lines 568-577): resized width and height (the logo is
rescaled so its width becomes `int(W * logo_scale)` whenever that bound
and the logo width are positive), the centred x, and the top-edge y
`int((H - logo_height) * logo_offset)`. -/
def universalLogoLayout (W H : ℕ) (lg : Img) (logoScale logoOffset : ℚ) :
    ℕ × ℕ × ℤ × ℤ :=
  let max_w : ℤ := pyInt ((W : ℚ) * logoScale)
  let wh :=
    if 0 < max_w ∧ 0 < lg.width then
      let scale : ℚ := (max_w : ℚ) / (lg.width : ℚ)
      (pyIntNat ((lg.width : ℚ) * scale), pyIntNat ((lg.height : ℚ) * scale))
    else (lg.width, lg.height)
  let y : ℤ := pyInt (((H : ℤ) - (wh.2 : ℤ) : ℤ) * logoOffset)
  let x : ℤ := Int.fdiv ((W : ℤ) - (wh.1 : ℤ)) 2
  (wh.1, wh.2, x, y)

/-- `render_universal`'s logo step (universal.py lines 568-579): resize
per the layout, then `canvas.alpha_composite(logo, (x, y))` — which
raises `ValueError` on a negative destination. -/
def placeLogoUniversal (canvas lg : Img) (logoScale logoOffset : ℚ) :
    Except String Img :=
  let L := universalLogoLayout canvas.width canvas.height lg logoScale logoOffset
  let max_w : ℤ := pyInt ((canvas.width : ℚ) * logoScale)
  let lgR := if 0 < max_w ∧ 0 < lg.width then lg.resize L.1 L.2.1 else lg
  if 0 ≤ L.2.2.1 ∧ 0 ≤ L.2.2.2 then
    .ok (canvas.alphaCompositeAt lgR L.2.2.1.toNat L.2.2.2.toNat)
  else .error "ValueError: Destination must be non-negative"

/-- The rounded-corner / border finish of `render_universal` (universal.py
lines 591-626): rounded alpha mask at 3% of the short side, optional
border fill and ring, and the final RGB conversion. -/
def finishUniversal (canvas0 : Img) (o : Options) : Except String Img := do
  let canvas := canvas0.convert .RGBA
  let W := canvas.width
  let H := canvas.height
  let radius := pyIntNat ((min W H : ℕ) * (3/100 : ℚ))
  let round_mask := roundedRectMask W H 0 0 W H radius
  let canvas := canvas.putalpha round_mask
  if getTruthy o "border_enabled" false then
    let border_px ← getInt o "border_px" 0
    let bc ← getStrExc o "border_color" "#FFFFFF"
    let border_color ← hex_to_rgb bc
    let filled := Image.new .RGBA W H ⟨border_color.1, border_color.2.1, border_color.2.2, 255⟩
    let canvas := Image.alphaCompositeFull filled canvas
    if 0 < border_px then
      let b := border_px.toNat
      let inner := roundedRectMask W H b b (W - b) (H - b) (max 1 (radius - b))
      let border_mask := Image.subtract round_mask inner
      let border_layer :=
        (Image.new .RGBA W H ⟨border_color.1, border_color.2.1, border_color.2.2, 255⟩).putalpha border_mask
      pure ((Image.alphaCompositeFull canvas border_layer).convert .RGB)
    else pure (canvas.convert .RGB)
  else pure (canvas.convert .RGB)

/-- `render_universal` (universal.py lines 522-626): base poster, logo
recolor + proportional placement, optional text overlay, rounded corners
and border, returned as RGB. -/
def render_universal (background : Img) (logo : Option Img) (o : Options)
    (noise : ℕ → ℕ → ℤ) : Except String Img :=
  build_base_poster background o noise >>= fun base =>
  parseULogoOpts o >>= fun lo =>
  (match logo with
    | none => Except.ok base
    | some lg0 =>
      let lg1 := lg0.convert .RGBA
      (if lo.logoMode = "match" then
        Except.ok (solid_color_logo lg1 (posterAvgColor background))
      else if lo.logoMode = "hex" then
        hex_to_rgb lo.logoHex >>= fun c => Except.ok (solid_color_logo lg1 c)
      else Except.ok lg1) >>= fun lg2 =>
      placeLogoUniversal base lg2 lo.logoScale lo.logoOffset) >>= fun canvas =>
  (if getTruthy o "text_overlay_enabled" false then
    (if getStrPlain o "custom_text" "" ≠ "" then
      render_text_overlay canvas (getStrPlain o "custom_text" "") o
    else Except.ok canvas)
  else Except.ok canvas) >>= fun canvas2 =>
  finishUniversal canvas2 o

/-- The auto-fit scale of `render_uniform_logo` (uniformlogo.py lines
52-56): width-fit scale, switched to the height-fit scale when that would
overflow the box, capped at 1 so a logo is never upscaled. -/
def uniformFitScale (lw lh : ℕ) (max_w max_h : ℚ) : ℚ :=
  let scale0 : ℚ := max_w / (lw : ℚ)
  let scale1 := if max_h < (lh : ℚ) * scale0 then max_h / (lh : ℚ) else scale0
  min scale1 1

/-- `render_uniform_logo` (uniformlogo.py lines 8-94): base poster, an
early return when no logo is given, recolor, bounding-box fit (with the
optional override), a masked paste, optional text overlay, and an
optional `ImageOps.expand` border (which enlarges the canvas; the result
is returned still in RGBA).  Pillow requires an integral border width;
the callers under study pass ints, modelled by truncation.  A
zero-dimension logo makes the Python call fail (`ZeroDivisionError` at
the width-fit division, or inside the zero-size resize); modelled as one
guard. -/
def render_uniform_logo (bg : Img) (logo : Option Img) (o : Options)
    (noise : ℕ → ℕ → ℤ) : Except String Img :=
  build_base_poster bg o noise >>= fun canvas =>
  match logo with
  | none => Except.ok canvas
  | some lg0 =>
    let lg1 := lg0.convert .RGBA
    let logoMode := getStrOr o "logo_mode" "stock"
    let logoHex := getStrOr o "logo_hex" "#FFFFFF"
    (if logoMode = "match" then Except.ok (solid_color_logo lg1 (posterAvgColor bg))
     else if logoMode = "hex" then
       hex_to_rgb logoHex >>= fun c => Except.ok (solid_color_logo lg1 c)
     else Except.ok lg1) >>= fun lg2 =>
    getNum o "uniform_logo_max_w" 600 >>= fun max_w =>
    getNum o "uniform_logo_max_h" 240 >>= fun max_h =>
    getNum o "uniform_logo_offset_x" (1/2) >>= fun offset_x_pct =>
    getNum o "uniform_logo_offset_y" (78/100) >>= fun offset_y_pct =>
    let cx := pyInt ((canvas.width : ℚ) * offset_x_pct)
    let cy := pyInt ((canvas.height : ℚ) * offset_y_pct)
    if lg2.width = 0 ∨ lg2.height = 0 then Except.error "ZeroDivisionError"
    else
      let scale := uniformFitScale lg2.width lg2.height max_w max_h
      (if getTruthy o "uniform_logo_override_enabled" false then
        getNum o "uniform_logo_override_scale" scale >>= fun s =>
        getNum o "uniform_logo_override_offset_y" offset_y_pct >>= fun oy =>
        Except.ok (s, pyInt ((canvas.height : ℚ) * oy))
      else Except.ok (scale, cy)) >>= fun sc =>
      let new_w := pyIntNat ((lg2.width : ℚ) * sc.1)
      let new_h := pyIntNat ((lg2.height : ℚ) * sc.1)
      let logo_res := lg2.resize new_w new_h
      let x : ℤ := cx - (new_w / 2 : ℕ)
      let y : ℤ := sc.2 - (new_h / 2 : ℕ)
      let canvas2 := canvas.pasteMaskAt logo_res logo_res x y
      (if getTruthy o "text_overlay_enabled" false then
        (if getStrPlain o "custom_text" "" ≠ "" then
          render_text_overlay canvas2 (getStrPlain o "custom_text" "") o
        else Except.ok canvas2)
      else Except.ok canvas2) >>= fun canvas3 =>
      if getTruthy o "border_enabled" false then
        getNum o "border_px" 0 >>= fun px =>
        if 0 < px then
          getStrExc o "border_color" "#FFFFFF" >>= fun bc =>
          hex_to_rgb bc >>= fun fill =>
          Except.ok (Image.expand canvas3 (pyIntNat px) ⟨fill.1, fill.2.1, fill.2.2, 255⟩)
        else Except.ok canvas3
      else Except.ok canvas3

/-- A deterministic stand-in noise stream for instantiating renders. -/
def testNoise : ℕ → ℕ → ℤ := fun _ _ => 0

/-- A small solid-red RGB background. -/
def testBg : Img := ⟨4, 6, fun _ _ => ⟨255, 0, 0, 255⟩, .RGB⟩

/-- A 2×2 constant background whose one-pixel downsample is its colour. -/
def testBgSmall : Img := ⟨2, 2, fun _ _ => ⟨10, 20, 30, 255⟩, .RGB⟩

/-- A small RGBA logo with one transparent pixel. -/
def testLogo : Img :=
  ⟨4, 6, fun x y => if x = 0 ∧ y = 0 then ⟨5, 6, 7, 0⟩ else ⟨1, 2, 3, 255⟩, .RGBA⟩

/-- A wide, short RGBA logo (500×100). -/
def testLogoWide : Img := ⟨500, 100, fun _ _ => ⟨1, 2, 3, 255⟩, .RGBA⟩

/-- A full-size constant RGBA canvas. -/
def testCanvas : Img := ⟨2000, 3000, fun _ _ => ⟨10, 20, 30, 255⟩, .RGBA⟩

theorem pyInt_eq_floor {q : ℚ} (h : 0 ≤ q) : pyInt q = ⌊q⌋ := by
  rw [pyInt, Rat.floor_def]
  exact Int.tdiv_eq_ediv (Rat.num_nonneg.mpr h) (Int.natCast_nonneg _)

theorem pyInt_nonneg {q : ℚ} (h : 0 ≤ q) : 0 ≤ pyInt q := by
  rw [pyInt_eq_floor h]
  exact Int.floor_nonneg.mpr h

theorem pyIntNat_cast_le {q : ℚ} (h : 0 ≤ q) : (pyIntNat q : ℚ) ≤ q := by
  rw [pyIntNat, pyInt_eq_floor h]
  have h0 : 0 ≤ ⌊q⌋ := Int.floor_nonneg.mpr h
  calc ((⌊q⌋.toNat : ℚ)) = ((⌊q⌋.toNat : ℤ) : ℚ) := by push_cast; ring
    _ = ((⌊q⌋ : ℤ) : ℚ) := by rw [Int.toNat_of_nonneg h0]
    _ ≤ q := Int.floor_le q

theorem pyIntNat_natCast (n : ℕ) : pyIntNat ((n : ℕ) : ℚ) = n := by
  rw [pyIntNat, pyInt_eq_floor (by positivity), Int.floor_natCast]
  exact Int.toNat_natCast n

theorem pyIntNat_le_of_le {q : ℚ} {n : ℕ} (h0 : 0 ≤ q) (h : q ≤ (n : ℚ)) :
    pyIntNat q ≤ n := by
  have := (pyIntNat_cast_le h0).trans h
  exact_mod_cast this

theorem pyInt_intCast (n : ℤ) : pyInt ((n : ℤ) : ℚ) = n := by
  rcases le_or_lt 0 n with hn | hn
  · rw [pyInt_eq_floor (by exact_mod_cast hn), Int.floor_intCast]
  · have h : pyInt ((n : ℤ) : ℚ) = ((n : ℚ) : ℚ).num.tdiv ((n : ℚ) : ℚ).den := rfl
    rw [h, Rat.num_intCast, Rat.den_intCast]
    exact Int.tdiv_one n

/-- crop always returns the requested box size. -/
theorem crop_width (img : Img) (l t r b : ℤ) : (img.crop l t r b).width = (r - l).toNat := rfl

theorem crop_height (img : Img) (l t r b : ℤ) : (img.crop l t r b).height = (b - t).toNat := rfl

theorem resize_width (img : Img) (tw th : ℕ) : (img.resize tw th).width = tw := rfl

theorem resize_height (img : Img) (tw th : ℕ) : (img.resize tw th).height = th := rfl

/-- C7 (claim): for every source with positive dimensions, every target
size and every zoom ≥ 0.01, `_resize_cover` returns an image of exactly
the target size — the final centred crop's box is the target box, and
Pillow's crop always returns its box size. -/
theorem resize_cover_exact_size (img : Img) (target_w target_h : ℕ) (zoom : ℚ)
    (hw : 0 < img.width) (hh : 0 < img.height) (hz : (1 : ℚ)/100 ≤ zoom) :
    (resize_cover img target_w target_h zoom).width = target_w ∧
      (resize_cover img target_w target_h zoom).height = target_h := by
  rw [resize_cover, if_neg (by omega)]
  refine ⟨?_, ?_⟩
  · rw [crop_width]; omega
  · rw [crop_height]; omega

/-- C7 witness: the theorem applied to a concrete image, target and zoom. -/
theorem resize_cover_exact_size_witness :
    (0 < testBg.width ∧ 0 < testBg.height ∧ (1 : ℚ)/100 ≤ 1/2) ∧
      (resize_cover testBg 123 77 (1/2)).width = 123 ∧
      (resize_cover testBg 123 77 (1/2)).height = 77 :=
  ⟨⟨by decide, by decide, by with_unfolding_all decide⟩,
    resize_cover_exact_size testBg 123 77 (1/2) (by decide) (by decide)
      (by with_unfolding_all decide)⟩

theorem pyIntNat_zero : pyIntNat 0 = 0 := by
  have h : pyInt 0 = 0 := by rw [pyInt_eq_floor le_rfl]; simp
  rw [pyIntNat, h]; rfl

theorem maskBlendChan_zero (c1 c2 : ℕ) : maskBlendChan c1 c2 0 = c2 := by
  unfold maskBlendChan
  omega

theorem maskBlendChan_full (c1 c2 : ℕ) : maskBlendChan c1 c2 255 = c1 := by
  unfold maskBlendChan
  omega

/-- C8 (claim): the matte/fade stage of `build_base_poster` with both
fractions 0 is skipped outright, returning the canvas bit-identically;
with `matte_height_ratio = 0.2` and `fade_height_ratio = 0` on the
2000×3000 canvas, every row from 2400 down (the bottom 20%) becomes
opaque black and every row above passes through unchanged. -/
theorem matte_fade_stage_spec (base : Img) :
    matteFadeStage base 0 0 = base ∧
    (base.width = 2000 → base.height = 3000 → ∀ x y : ℕ,
      (2400 ≤ y → (matteFadeStage base (1/5) 0).px x y = ⟨0, 0, 0, 255⟩) ∧
      (y < 2400 → (matteFadeStage base (1/5) 0).px x y = base.px x y)) := by
  have hm0 : ∀ h : ℕ, pyIntNat ((h : ℚ) * 0) = 0 := by
    intro h
    rw [mul_zero, pyIntNat_zero]
  have hm600 : pyIntNat (((3000 : ℕ) : ℚ) * (1/5)) = 600 := by
    have h600 : ((3000 : ℕ) : ℚ) * (1/5) = ((600 : ℕ) : ℚ) := by norm_num
    rw [h600, pyIntNat_natCast]
  constructor
  · simp only [matteFadeStage, hm0]
    simp
  · intro _ hh x y
    constructor
    · intro hy
      simp only [matteFadeStage, hh, hm0, hm600]
      rw [if_pos (by omega)]
      simp only [Image.composite, Image.new]
      rw [if_pos (by omega), maskBlendPix]
      simp [maskBlendChan_full]
    · intro hy
      simp only [matteFadeStage, hh, hm0, hm600]
      rw [if_pos (by omega)]
      simp only [Image.composite, Image.new]
      rw [if_neg (by omega), if_neg (by omega), maskBlendPix]
      simp [maskBlendChan_zero]

/-- C8 witness: the stage evaluated on a concrete full-size canvas — a
bottom-band pixel turns opaque black, a top pixel is untouched, and the
zero-fraction stage returns the canvas unchanged. -/
theorem matte_fade_stage_spec_witness :
    matteFadeStage testCanvas 0 0 = testCanvas ∧
      (matteFadeStage testCanvas (1/5) 0).px 0 2400 = ⟨0, 0, 0, 255⟩ ∧
      (matteFadeStage testCanvas (1/5) 0).px 0 2399 = testCanvas.px 0 2399 :=
  ⟨(matte_fade_stage_spec testCanvas).1,
    ((matte_fade_stage_spec testCanvas).2 rfl rfl 0 2400).1 (by decide),
    ((matte_fade_stage_spec testCanvas).2 rfl rfl 0 2399).2 (by decide)⟩

/-- C9 (claim): `match` recoloring — as `render_universal` builds it with
`_solid_color_logo` and the background's one-pixel downsample — preserves
the RGBA logo's alpha channel at every pixel exactly, and every pixel's
colour channels become that single computed target colour; the logo's
dimensions are untouched. -/
theorem solid_color_logo_match_spec (bg logo : Img) (x y : ℕ)
    (hmode : logo.mode = Mode.RGBA) :
    (solid_color_logo logo (posterAvgColor bg)).px x y =
      ⟨(posterAvgColor bg).1, (posterAvgColor bg).2.1, (posterAvgColor bg).2.2,
        (logo.px x y).a⟩ ∧
    (solid_color_logo logo (posterAvgColor bg)).width = logo.width ∧
    (solid_color_logo logo (posterAvgColor bg)).height = logo.height := by
  refine ⟨?_, rfl, rfl⟩
  simp only [solid_color_logo, Img.convert]
  rw [hmode]

/-- C9 witness: the recolored test logo at its transparent pixel — colour
channels take the downsampled background colour, alpha stays 0. -/
theorem solid_color_logo_match_spec_witness :
    testLogo.mode = Mode.RGBA ∧
      (solid_color_logo testLogo (posterAvgColor testBgSmall)).px 0 0 = ⟨10, 20, 30, 0⟩ :=
  ⟨rfl, ((solid_color_logo_match_spec testBgSmall testLogo 0 0 rfl).1).trans
    (by with_unfolding_all rfl)⟩

/-- C10 (claim): `render_uniform_logo` called with `logo = None` returns
the base poster the moment it is built — text overlay and border are never
reached, whatever the options say (the result is exactly
`build_base_poster`'s). -/
theorem render_uniform_logo_none_is_base (bg : Img) (o : Options)
    (noise : ℕ → ℕ → ℤ) :
    render_uniform_logo bg none o noise = build_base_poster bg o noise := by
  cases h : build_base_poster bg o noise with
  | error e => simp only [render_uniform_logo, h]; rfl
  | ok canvas => simp only [render_uniform_logo, h]; rfl

theorem exc_bind_ok {α β : Type} (a : α) (k : α → Except String β) :
    (Except.ok a : Except String α) >>= k = k a := rfl

theorem exc_bind_error {α β : Type} (e : String) (k : α → Except String β) :
    (Except.error e : Except String α) >>= k = Except.error e := rfl

/-- C1 counterexample: with `poster_zoom = "abc"` the render is not
completed with the default zoom — `build_base_poster` propagates
`float()`'s `ValueError` and aborts. -/
theorem build_base_poster_malformed_raises :
    build_base_poster testBg [("poster_zoom", OptVal.str "abc")] testNoise
      = .error "could not convert string to float: abc" := by
  with_unfolding_all rfl

/-- C1 (amended): a malformed option value is never replaced by its
default — whenever `poster_zoom` holds a string `float()` cannot parse,
`build_base_poster` aborts with that `ValueError`, for every background,
every surrounding option set and every noise stream (the same coercion
pattern governs the other numeric options, which are read in source
order after this first one). -/
theorem build_base_poster_malformed_aborts (bg : Img) (o : Options)
    (noise : ℕ → ℕ → ℤ) (s : String)
    (hk : o.get? "poster_zoom" = some (OptVal.str s))
    (hp : parseFloatStr s = none) :
    build_base_poster bg o noise =
      .error ("could not convert string to float: " ++ s) := by
  have h1 : getFloat o "poster_zoom" 1 = .error ("could not convert string to float: " ++ s) := by
    simp only [getFloat, hk, hp]
  simp only [build_base_poster, parseBaseOpts, h1, exc_bind_error]
  rfl

/-- C1 witness: the amended theorem applied at a concrete malformed
option set. -/
theorem build_base_poster_malformed_aborts_witness :
    build_base_poster testBg
        [("poster_zoom", OptVal.str "1.2.3"), ("grain_amount", OptVal.num (3/10))]
        testNoise
      = .error "could not convert string to float: 1.2.3" :=
  build_base_poster_malformed_aborts testBg
    [("poster_zoom", OptVal.str "1.2.3"), ("grain_amount", OptVal.num (3/10))]
    testNoise "1.2.3" (by with_unfolding_all rfl) (by with_unfolding_all rfl)

/-- C4 counterexample: a supplied `poster_zoom` of 0.005 — below 0.01 —
comes out of the option stage as 0.1, not 0.01: `build_base_poster`
floors the zoom at 0.1 (universal.py line 461), a larger minimum than the
claimed 0.01. -/
theorem poster_zoom_not_clamped_at_hundredth :
    (parseBaseOpts [("poster_zoom", OptVal.num (5/1000))]).map BaseOpts.posterZoom
      = .ok (1/10) ∧ ((1 : ℚ)/10) ≠ 1/100 := by
  constructor
  · with_unfolding_all rfl
  · with_unfolding_all decide

/-- C4 (amended): the zoom `build_base_poster` hands to the resize is
`max(poster_zoom, 0.1)`: it is always at least 0.1 (hence ≥ 0.01, the
floor `_resize_cover` would apply on its own), a missing `poster_zoom`
defaults to 1.0, and a supplied numeric value below 0.1 — in particular
any value below 0.01 — is clamped up to exactly 0.1, not 0.01. -/
theorem poster_zoom_floor_spec (o : Options) (b : BaseOpts)
    (h : parseBaseOpts o = .ok b) :
    ((1 : ℚ)/10 ≤ b.posterZoom) ∧
    (o.get? "poster_zoom" = none → b.posterZoom = 1) ∧
    (∀ q : ℚ, o.get? "poster_zoom" = some (OptVal.num q) →
      b.posterZoom = max q (1/10)) := by
  have key : ∀ pz, getFloat o "poster_zoom" 1 = .ok pz → b.posterZoom = max pz (1/10) := by
    intro pz h1
    rw [parseBaseOpts, h1, exc_bind_ok] at h
    cases h2 : getFloat o "poster_shift_y" 0 with
    | error e => rw [h2, exc_bind_error] at h; exact absurd h (by simp)
    | ok v2 =>
    rw [h2, exc_bind_ok] at h
    cases h3 : getFloat o "matte_height_ratio" 0 with
    | error e => rw [h3, exc_bind_error] at h; exact absurd h (by simp)
    | ok v3 =>
    rw [h3, exc_bind_ok] at h
    cases h4 : getFloat o "fade_height_ratio" 0 with
    | error e => rw [h4, exc_bind_error] at h; exact absurd h (by simp)
    | ok v4 =>
    rw [h4, exc_bind_ok] at h
    cases h5 : getFloat o "vignette_strength" 0 with
    | error e => rw [h5, exc_bind_error] at h; exact absurd h (by simp)
    | ok v5 =>
    rw [h5, exc_bind_ok] at h
    cases h6 : getFloat o "grain_amount" 0 with
    | error e => rw [h6, exc_bind_error] at h; exact absurd h (by simp)
    | ok v6 =>
    rw [h6, exc_bind_ok] at h
    cases h7 : getFloat o "v12_wash_strength" 0 with
    | error e => rw [h7, exc_bind_error] at h; exact absurd h (by simp)
    | ok v7 =>
    rw [h7, exc_bind_ok] at h
    have hb : b = ⟨max pz (1/10), pyClamp v2 (-(1/2)) (1/2), pyClamp v3 0 (1/2),
        pyClamp v4 0 (1/2), pyClamp v5 0 1, pyClamp v6 0 (6/10), v7⟩ := by
      have := h.symm
      simpa [pure, Except.pure] using this
    rw [hb]
  refine ⟨?_, ?_, ?_⟩
  · cases h1 : getFloat o "poster_zoom" 1 with
    | error e =>
      rw [parseBaseOpts, h1, exc_bind_error] at h
      exact absurd h (by simp)
    | ok pz => rw [key pz h1]; exact le_max_right _ _
  · intro hk
    have h1 : getFloat o "poster_zoom" 1 = .ok 1 := by simp [getFloat, hk]
    rw [key 1 h1]
    norm_num
  · intro q hk
    have h1 : getFloat o "poster_zoom" 1 = .ok q := by simp [getFloat, hk]
    exact key q h1

/-- C4 witness: the amended theorem applied to the empty option set — the
defaulted zoom is 1.0 and in particular at least 0.1. -/
theorem poster_zoom_floor_spec_witness :
    (1 : ℚ)/10 ≤ (BaseOpts.mk 1 0 0 0 0 0 0).posterZoom ∧
      (BaseOpts.mk 1 0 0 0 0 0 0).posterZoom = 1 := by
  have h : parseBaseOpts [] = .ok ⟨1, 0, 0, 0, 0, 0, 0⟩ := by with_unfolding_all rfl
  exact ⟨(poster_zoom_floor_spec [] _ h).1, (poster_zoom_floor_spec [] _ h).2.1 rfl⟩

/-- C6 (claim): the bounding-box fit of `render_uniform_logo` (no
override) never upscales — the resized width and height never exceed the
logo's own, they never exceed the box, and a logo already fitting the box
keeps its exact pixel dimensions (the scale is capped at 1). -/
theorem uniform_fit_never_upscales (lw lh : ℕ) (max_w max_h : ℚ)
    (hlw : 0 < lw) (hlh : 0 < lh) (hw : 0 < max_w) (hh : 0 < max_h) :
    (pyIntNat ((lw : ℚ) * uniformFitScale lw lh max_w max_h) ≤ lw ∧
      pyIntNat ((lh : ℚ) * uniformFitScale lw lh max_w max_h) ≤ lh) ∧
    ((pyIntNat ((lw : ℚ) * uniformFitScale lw lh max_w max_h) : ℚ) ≤ max_w ∧
      (pyIntNat ((lh : ℚ) * uniformFitScale lw lh max_w max_h) : ℚ) ≤ max_h) ∧
    ((lw : ℚ) ≤ max_w → (lh : ℚ) ≤ max_h →
      pyIntNat ((lw : ℚ) * uniformFitScale lw lh max_w max_h) = lw ∧
      pyIntNat ((lh : ℚ) * uniformFitScale lw lh max_w max_h) = lh) := by
  have hlwQ : (0 : ℚ) < lw := by exact_mod_cast hlw
  have hlhQ : (0 : ℚ) < lh := by exact_mod_cast hlh
  have hsdef : uniformFitScale lw lh max_w max_h =
      min (if max_h < (lh : ℚ) * (max_w / lw) then max_h / lh else max_w / lw) 1 := by
    simp only [uniformFitScale]
  rw [hsdef]
  set s1 : ℚ := if max_h < (lh : ℚ) * (max_w / lw) then max_h / lh else max_w / lw with hs1
  set s : ℚ := min s1 1 with hs
  have hcancelw : (lw : ℚ) * (max_w / lw) = max_w := by field_simp
  have hcancelh : (lh : ℚ) * (max_h / lh) = max_h := by field_simp
  have hs1pos : 0 < s1 := by
    rw [hs1]; split
    · exact div_pos hh hlhQ
    · exact div_pos hw hlwQ
  have hspos : 0 < s := lt_min hs1pos one_pos
  have hsle1 : s ≤ 1 := min_le_right _ _
  have hsles1 : s ≤ s1 := min_le_left _ _
  have hws1 : (lw : ℚ) * s1 ≤ max_w := by
    rw [hs1]; split
    · next hb =>
      have h1 : max_h / lh ≤ max_w / lw := by
        rw [div_le_div_iff₀ hlhQ hlwQ]
        nlinarith [hb, hcancelw]
      calc (lw : ℚ) * (max_h / lh) ≤ (lw : ℚ) * (max_w / lw) :=
            mul_le_mul_of_nonneg_left h1 hlwQ.le
        _ = max_w := hcancelw
    · exact le_of_eq hcancelw
  have hhs1 : (lh : ℚ) * s1 ≤ max_h := by
    rw [hs1]; split
    · exact le_of_eq hcancelh
    · next hb => exact le_of_not_lt hb
  have hlwS : (lw : ℚ) * s ≤ max_w :=
    le_trans (mul_le_mul_of_nonneg_left hsles1 hlwQ.le) hws1
  have hlhS : (lh : ℚ) * s ≤ max_h :=
    le_trans (mul_le_mul_of_nonneg_left hsles1 hlhQ.le) hhs1
  have h0w : (0 : ℚ) ≤ (lw : ℚ) * s := by positivity
  have h0h : (0 : ℚ) ≤ (lh : ℚ) * s := by positivity
  have hlwN : (lw : ℚ) * s ≤ (lw : ℕ) := by
    calc (lw : ℚ) * s ≤ (lw : ℚ) * 1 := mul_le_mul_of_nonneg_left hsle1 hlwQ.le
      _ = lw := mul_one _
  have hlhN : (lh : ℚ) * s ≤ (lh : ℕ) := by
    calc (lh : ℚ) * s ≤ (lh : ℚ) * 1 := mul_le_mul_of_nonneg_left hsle1 hlhQ.le
      _ = lh := mul_one _
  refine ⟨⟨pyIntNat_le_of_le h0w hlwN, pyIntNat_le_of_le h0h hlhN⟩,
    ⟨(pyIntNat_cast_le h0w).trans hlwS, (pyIntNat_cast_le h0h).trans hlhS⟩, ?_⟩
  intro hfw hfh
  have h1le : 1 ≤ s1 := by
    rw [hs1]; split
    · rw [le_div_iff₀ hlhQ, one_mul]; exact hfh
    · rw [le_div_iff₀ hlwQ, one_mul]; exact hfw
  have hseq : s = 1 := by rw [hs]; exact min_eq_right h1le
  rw [hseq, mul_one, mul_one]
  exact ⟨pyIntNat_natCast lw, pyIntNat_natCast lh⟩

/-- C6 witness: a 1000×300 logo against the default 600×240 box — scaled
down within both the box and its own size. -/
theorem uniform_fit_never_upscales_witness :
    ((0 : ℚ) < 600 ∧ (0 : ℚ) < 240) ∧
    pyIntNat ((1000 : ℚ) * uniformFitScale 1000 300 600 240) ≤ 1000 ∧
    (pyIntNat ((1000 : ℚ) * uniformFitScale 1000 300 600 240) : ℚ) ≤ 600 ∧
    (pyIntNat ((300 : ℚ) * uniformFitScale 1000 300 600 240) : ℚ) ≤ 240 := by
  have H := uniform_fit_never_upscales 1000 300 600 240 (by decide) (by decide)
    (by with_unfolding_all decide) (by with_unfolding_all decide)
  exact ⟨⟨by with_unfolding_all decide, by with_unfolding_all decide⟩,
    H.1.1, H.2.1.1, H.2.1.2⟩

theorem pyIntNat_intCast (n : ℤ) : pyIntNat ((n : ℤ) : ℚ) = n.toNat := by
  rw [pyIntNat, pyInt_intCast]

theorem rndNat_natCast (n : ℕ) : rndNat ((n : ℕ) : ℚ) = n := by
  rw [rndNat, round_natCast, Int.toNat_natCast]

/-- Source-over of a fully transparent source pixel onto a fully opaque
destination pixel is the destination, exactly. -/
theorem overPix_clear_opaque (sr sg sb pr pg pb : ℕ) :
    overPix ⟨sr, sg, sb, 0⟩ ⟨pr, pg, pb, 255⟩ = ⟨pr, pg, pb, 255⟩ := by
  rw [overPix]
  norm_num
  refine ⟨?_, ?_, ?_, ?_⟩
  · exact rndNat_natCast pr
  · exact rndNat_natCast pg
  · exact rndNat_natCast pb
  · show rndNat 255 = 255
    rw [show (255 : ℚ) = ((255 : ℕ) : ℚ) by norm_num, rndNat_natCast]

/-- C3 counterexample: with `logo_scale = 0.5`, `logo_offset = 0.75` and
a 500×100 logo on the 2000×3000 canvas, `render_universal` places a
1000×200 logo with its top edge at y = 2100: the vertical centre sits at
2200, not at `logo_offset × canvas_height = 2250`. -/
theorem universal_logo_center_mismatch :
    universalLogoLayout 2000 3000 testLogoWide (1/2) (3/4) = (1000, 200, 500, 2100) ∧
      ((2100 : ℚ) + 200 / 2 ≠ (3/4) * 3000) := by
  constructor
  · with_unfolding_all rfl
  · with_unfolding_all decide

/-- C3 (amended): in the proportional placement of `render_universal`,
the placed logo's width is `int(logo_scale × canvas_width)` (the clamped
scale, truncated); the logo's TOP edge — not its centre — lies at
`int((canvas_height − logo_height) × logo_offset)`, which keeps the whole
logo inside the canvas whenever it fits vertically; and the paste is an
alpha-composite: a fully transparent logo pixel leaves an opaque canvas
pixel bit-identical. -/
theorem universal_logo_placement_spec (W H : ℕ) (lg : Img) (sc off : ℚ)
    (hmw : 0 < pyInt ((W : ℚ) * sc)) (hlw : 0 < lg.width)
    (hoff0 : 0 ≤ off) (hoff1 : off ≤ 1) :
    (universalLogoLayout W H lg sc off).1 = (pyInt ((W : ℚ) * sc)).toNat ∧
    (universalLogoLayout W H lg sc off).2.2.2 =
      pyInt ((((H : ℤ) - ((universalLogoLayout W H lg sc off).2.1 : ℤ) : ℤ) : ℚ) * off) ∧
    ((universalLogoLayout W H lg sc off).2.1 ≤ H →
      0 ≤ (universalLogoLayout W H lg sc off).2.2.2 ∧
      (universalLogoLayout W H lg sc off).2.2.2 +
        ((universalLogoLayout W H lg sc off).2.1 : ℤ) ≤ (H : ℤ)) ∧
    (∀ (canvas lgR : Img) (x y i j : ℕ),
      x ≤ i → i < x + lgR.width → y ≤ j → j < y + lgR.height →
      (lgR.px (i - x) (j - y)).a = 0 → (canvas.px i j).a = 255 →
      (canvas.alphaCompositeAt lgR x y).px i j = canvas.px i j) := by
  have hlwQ : (0 : ℚ) < lg.width := by exact_mod_cast hlw
  have hL : universalLogoLayout W H lg sc off =
      ((pyInt ((W : ℚ) * sc)).toNat,
       pyIntNat ((lg.height : ℚ) * ((pyInt ((W : ℚ) * sc) : ℚ) / (lg.width : ℚ))),
       Int.fdiv ((W : ℤ) - ((pyInt ((W : ℚ) * sc)).toNat : ℤ)) 2,
       pyInt ((((H : ℤ) - (pyIntNat ((lg.height : ℚ) *
         ((pyInt ((W : ℚ) * sc) : ℚ) / (lg.width : ℚ))) : ℤ) : ℤ) : ℚ) * off)) := by
    simp only [universalLogoLayout]
    rw [if_pos ⟨hmw, hlw⟩]
    have hcancel : (lg.width : ℚ) * ((pyInt ((W : ℚ) * sc) : ℚ) / (lg.width : ℚ)) =
        ((pyInt ((W : ℚ) * sc) : ℤ) : ℚ) := by
      field_simp
    rw [hcancel, pyIntNat_intCast]
  refine ⟨by rw [hL], by rw [hL], ?_, ?_⟩
  · intro hfit
    rw [hL] at hfit ⊢
    dsimp only at hfit ⊢
    set nh : ℕ := pyIntNat ((lg.height : ℚ) * ((pyInt ((W : ℚ) * sc) : ℚ) / (lg.width : ℚ))) with hnh
    have ht0 : (0 : ℤ) ≤ (H : ℤ) - (nh : ℤ) := by
      have : (nh : ℤ) ≤ (H : ℤ) := by exact_mod_cast hfit
      omega
    have hq0 : (0 : ℚ) ≤ (((H : ℤ) - (nh : ℤ) : ℤ) : ℚ) * off := by
      have : (0 : ℚ) ≤ (((H : ℤ) - (nh : ℤ) : ℤ) : ℚ) := by exact_mod_cast ht0
      positivity
    have hqt : (((H : ℤ) - (nh : ℤ) : ℤ) : ℚ) * off ≤ (((H : ℤ) - (nh : ℤ) : ℤ) : ℚ) := by
      have h1 : (0 : ℚ) ≤ (((H : ℤ) - (nh : ℤ) : ℤ) : ℚ) := by exact_mod_cast ht0
      nlinarith
    constructor
    · rw [pyInt_eq_floor hq0]
      exact Int.floor_nonneg.mpr hq0
    · rw [pyInt_eq_floor hq0]
      have h2 : ⌊(((H : ℤ) - (nh : ℤ) : ℤ) : ℚ) * off⌋ ≤ (H : ℤ) - (nh : ℤ) := by
        calc ⌊(((H : ℤ) - (nh : ℤ) : ℤ) : ℚ) * off⌋
            ≤ ⌊(((H : ℤ) - (nh : ℤ) : ℤ) : ℚ)⌋ := Int.floor_le_floor hqt
          _ = (H : ℤ) - (nh : ℤ) := Int.floor_intCast _
      omega
  · intro canvas lgR x y i j hx1 hx2 hy1 hy2 ha hda
    show (if x ≤ i ∧ i < x + lgR.width ∧ y ≤ j ∧ j < y + lgR.height then
        overPix (lgR.px (i - x) (j - y)) (canvas.px i j)
      else canvas.px i j) = canvas.px i j
    rw [if_pos ⟨hx1, hx2, hy1, hy2⟩]
    rcases hps : lgR.px (i - x) (j - y) with ⟨sr, sg, sb, sa⟩
    rcases hpx : canvas.px i j with ⟨pr, pg, pb, pa⟩
    rw [hps] at ha
    rw [hpx] at hda
    simp only at ha hda
    rw [ha] at *
    rw [hda]
    exact overPix_clear_opaque sr sg sb pr pg pb

/-- C3 witness: the amended theorem at the concrete wide test logo. -/
theorem universal_logo_placement_spec_witness :
    (0 < pyInt ((2000 : ℚ) * (1/2)) ∧ 0 < testLogoWide.width) ∧
    (universalLogoLayout 2000 3000 testLogoWide (1/2) (3/4)).1 =
      (pyInt ((2000 : ℚ) * (1/2))).toNat ∧
    (universalLogoLayout 2000 3000 testLogoWide (1/2) (3/4)).2.2.2 =
      pyInt ((((3000 : ℤ) -
        ((universalLogoLayout 2000 3000 testLogoWide (1/2) (3/4)).2.1 : ℤ) : ℤ) : ℚ) * (3/4)) := by
  have H := universal_logo_placement_spec 2000 3000 testLogoWide (1/2) (3/4)
    (by with_unfolding_all decide) (by decide)
    (by with_unfolding_all decide) (by with_unfolding_all decide)
  exact ⟨⟨by with_unfolding_all decide, by decide⟩, H.1, H.2.1⟩

theorem length_str_singleton (c : Char) : (String.singleton c).length = 1 := rfl

/-- The character fallback keeps every flushed line fitting-or-single and
its running line fitting-or-single. -/
theorem wrapCharFold_inv (measure : String → ℕ) (mw : ℕ) (P : String → Prop)
    (hPfit : ∀ l, measure l ≤ mw → P l) (hPone : ∀ l, l.length ≤ 1 → P l)
    (cs : List Char) :
    ∀ st : List String × String,
      (∀ l ∈ st.1, P l) → (measure st.2 ≤ mw ∨ st.2.length ≤ 1) →
      (∀ l ∈ (cs.foldl (wrapCharStep measure mw) st).1, P l) ∧
      (measure (cs.foldl (wrapCharStep measure mw) st).2 ≤ mw ∨
        (cs.foldl (wrapCharStep measure mw) st).2.length ≤ 1) := by
  induction cs with
  | nil => intro st hacc hcur; exact ⟨hacc, hcur⟩
  | cons c cs ih =>
    intro st hacc hcur
    rw [List.foldl_cons]
    apply ih
    · intro l hl
      simp only [wrapCharStep] at hl
      split at hl
      · exact hacc l hl
      · split at hl
        · rcases List.mem_append.mp hl with h | h
          · exact hacc l h
          · rcases List.mem_singleton.mp h with rfl
            rcases hcur with h2 | h2
            · exact hPfit _ h2
            · exact hPone _ h2
        · exact hacc l hl
    · simp only [wrapCharStep]
      split
      · next h => exact Or.inl h
      · split
        · exact Or.inr (le_of_eq (length_str_singleton c))
        · exact Or.inr (le_of_eq (length_str_singleton c))

/-- The greedy word loop keeps every flushed line fitting, single, or a
verbatim input word, and likewise its running line. -/
theorem wrapWordFold_inv (measure : String → ℕ) (mw : ℕ) (words : List String) :
    ∀ ws : List String, (∀ w ∈ ws, w ∈ words) →
    ∀ st : List String × String,
      (∀ l ∈ st.1, measure l ≤ mw ∨ l.length ≤ 1 ∨ l ∈ words) →
      (measure st.2 ≤ mw ∨ st.2.length ≤ 1 ∨ st.2 ∈ words) →
      (∀ l ∈ (ws.foldl (wrapWordStep measure mw) st).1,
        measure l ≤ mw ∨ l.length ≤ 1 ∨ l ∈ words) ∧
      (measure (ws.foldl (wrapWordStep measure mw) st).2 ≤ mw ∨
        (ws.foldl (wrapWordStep measure mw) st).2.length ≤ 1 ∨
        (ws.foldl (wrapWordStep measure mw) st).2 ∈ words) := by
  intro ws
  induction ws with
  | nil => intro _ st hacc hcur; exact ⟨hacc, hcur⟩
  | cons w ws ih =>
    intro hsub st hacc hcur
    rw [List.foldl_cons]
    have hw : w ∈ words := hsub w (List.mem_cons_self w ws)
    have hsub2 : ∀ v ∈ ws, v ∈ words := fun v hv => hsub v (List.mem_cons_of_mem w hv)
    have hstep : (∀ l ∈ (wrapWordStep measure mw st w).1,
        measure l ≤ mw ∨ l.length ≤ 1 ∨ l ∈ words) ∧
        (measure (wrapWordStep measure mw st w).2 ≤ mw ∨
          (wrapWordStep measure mw st w).2.length ≤ 1 ∨
          (wrapWordStep measure mw st w).2 ∈ words) := by
      simp only [wrapWordStep]
      by_cases h1 : measure (st.2 ++ (if st.2 ≠ "" then " " else "") ++ w) ≤ mw
      · rw [if_pos h1]
        exact ⟨hacc, Or.inl h1⟩
      · rw [if_neg h1]
        by_cases h2 : st.2 ≠ ""
        · rw [if_pos h2]
          refine ⟨?_, Or.inr (Or.inr hw)⟩
          intro l hl
          rcases List.mem_append.mp hl with h | h
          · exact hacc l h
          · rcases List.mem_singleton.mp h with rfl
            exact hcur
        · rw [if_neg h2]
          have hempty : st.2 = "" := not_not.mp h2
          by_cases h3 : mw < measure w
          · rw [if_pos h3]
            have h0 : measure st.2 ≤ mw ∨ st.2.length ≤ 1 := by
              rw [hempty]
              exact Or.inr (by decide)
            have H := wrapCharFold_inv measure mw
              (fun l => measure l ≤ mw ∨ l.length ≤ 1 ∨ l ∈ words)
              (fun l hl => Or.inl hl) (fun l hl => Or.inr (Or.inl hl))
              w.toList st hacc h0
            refine ⟨H.1, ?_⟩
            rcases H.2 with h | h
            · exact Or.inl h
            · exact Or.inr (Or.inl h)
          · rw [if_neg h3]
            exact ⟨hacc, Or.inl (le_of_not_lt h3)⟩
    exact ih hsub2 _ hstep.1 hstep.2

/-- C5 (amended): wrapping never fails, and a line that fits is returned
as exactly that one line; a spaceless over-wide line (one with a single
word, the case where `line.split(' ')` is `[line]`) is broken character
by character, every produced piece fitting the budget or being a single
character.  But the guarantee on general lines is weaker than claimed —
every produced line either fits the budget, or is a single character (one
over-wide character is emitted as its own line), or is one of the input's
space-separated words emitted verbatim: the character-by-character
fallback runs only when the over-wide word starts an empty line, so an
over-wide word that follows earlier words on the line is emitted whole,
wider than the budget. -/
theorem wrap_line_spec (measure : String → ℕ) (max_width : ℕ) (line : String) :
    (measure line ≤ max_width → wrap_line measure max_width line = [line]) ∧
    (line.splitOn " " = [line] → max_width < measure line →
      ∀ l ∈ wrap_line measure max_width line,
        measure l ≤ max_width ∨ l.length ≤ 1) ∧
    (∀ l ∈ wrap_line measure max_width line,
      measure l ≤ max_width ∨ l.length ≤ 1 ∨ l ∈ line.splitOn " ") := by
  refine ⟨?_, ?_, ?_⟩
  · intro hfit
    by_cases hline : line = ""
    · rw [wrap_line, if_pos hline, hline]
    · rw [wrap_line, if_neg hline, if_pos hfit]
  · intro hsplit hwide l hl
    by_cases hline : line = ""
    · rw [wrap_line, if_pos hline] at hl
      rcases List.mem_singleton.mp hl with rfl
      exact Or.inr (by decide)
    · rw [wrap_line, if_neg hline, if_neg (not_le.mpr hwide)] at hl
      simp only at hl
      rw [hsplit, List.foldl_cons, List.foldl_nil] at hl
      have hstep : wrapWordStep measure max_width ([], "") line =
          line.toList.foldl (wrapCharStep measure max_width) ([], "") := by
        simp only [wrapWordStep]
        have htest : (((([] : List String), ("" : String)).2 : String) ++
            (if ((([] : List String), ("" : String)).2 : String) ≠ "" then " " else "") ++
            line : String) = line := by
          rw [if_neg (by simp)]
          rfl
        rw [htest, if_neg (not_le.mpr hwide), if_neg (by simp), if_pos hwide]
      rw [hstep] at hl
      have H := wrapCharFold_inv measure max_width
        (fun l => measure l ≤ max_width ∨ l.length ≤ 1)
        (fun _ h => Or.inl h) (fun _ h => Or.inr h)
        line.toList ([], "")
        (by intro l2 hl2; exact absurd hl2 (List.not_mem_nil l2))
        (Or.inr (by decide))
      set fin := line.toList.foldl (wrapCharStep measure max_width)
        (([] : List String), ("" : String)) with hfin
      by_cases h2 : fin.2 ≠ ""
      · rw [if_pos h2] at hl
        by_cases h3 : fin.1 ++ [fin.2] = []
        · rw [if_pos h3] at hl
          rcases List.mem_singleton.mp hl with rfl
          exact Or.inr (by decide)
        · rw [if_neg h3] at hl
          rcases List.mem_append.mp hl with h | h
          · exact H.1 l h
          · rcases List.mem_singleton.mp h with rfl
            exact H.2
      · rw [if_neg h2] at hl
        by_cases h3 : fin.1 = []
        · rw [if_pos h3] at hl
          rcases List.mem_singleton.mp hl with rfl
          exact Or.inr (by decide)
        · rw [if_neg h3] at hl
          exact H.1 l hl
  · intro l hl
    by_cases hline : line = ""
    · rw [wrap_line, if_pos hline] at hl
      rcases List.mem_singleton.mp hl with rfl
      exact Or.inr (Or.inl (by decide))
    · by_cases hfit : measure line ≤ max_width
      · rw [wrap_line, if_neg hline, if_pos hfit] at hl
        rcases List.mem_singleton.mp hl with rfl
        exact Or.inl hfit
      · rw [wrap_line, if_neg hline, if_neg hfit] at hl
        have H := wrapWordFold_inv measure max_width (line.splitOn " ")
          (line.splitOn " ") (fun _ h => h) ([], "")
          (by intro l hl2; exact absurd hl2 (List.not_mem_nil l))
          (Or.inr (Or.inl (by decide)))
        set fin := (line.splitOn " ").foldl (wrapWordStep measure max_width) ([], "")
          with hfin
        simp only at hl
        by_cases h2 : fin.2 ≠ ""
        · rw [if_pos h2] at hl
          by_cases h3 : fin.1 ++ [fin.2] = []
          · rw [if_pos h3] at hl
            rcases List.mem_singleton.mp hl with rfl
            exact Or.inr (Or.inl (by decide))
          · rw [if_neg h3] at hl
            rcases List.mem_append.mp hl with h | h
            · exact H.1 l h
            · rcases List.mem_singleton.mp h with rfl
              exact H.2
        · rw [if_neg h2] at hl
          by_cases h3 : fin.1 = []
          · rw [if_pos h3] at hl
            rcases List.mem_singleton.mp hl with rfl
            exact Or.inr (Or.inl (by decide))
          · rw [if_neg h3] at hl
            exact H.1 l hl

/-- C5 counterexample: under per-character metrics (10 a character) and a
budget of 50, `wrap_line` turns `"aa LLLLLLLLLL"` into
`["aa", "LLLLLLLLLL"]` — the ten-character word follows a fitting word,
is never broken, and its measured width 100 exceeds the budget. -/
theorem wrap_line_emits_overwide_line :
    wrap_line (fun s => 10 * s.length) 50 "aa LLLLLLLLLL" = ["aa", "LLLLLLLLLL"] ∧
      50 < 10 * ("LLLLLLLLLL" : String).length ∧
      ¬ ("LLLLLLLLLL" : String).length ≤ 1 := by
  refine ⟨by with_unfolding_all rfl, by decide, by decide⟩

/-- C5 witness: the amended theorem at concrete inputs — the fitting
string comes back as one line, and every produced line of the spaceless
over-wide word's character-by-character split fits the budget or is a
single character. -/
theorem wrap_line_spec_witness :
    (10 * ("aa bb" : String).length ≤ 50 ∧
      wrap_line (fun s => 10 * s.length) 50 "aa bb" = ["aa bb"]) ∧
    (("LLLLLLLLLL" : String).splitOn " " = ["LLLLLLLLLL"] ∧
      50 < 10 * ("LLLLLLLLLL" : String).length ∧
      ∀ l ∈ wrap_line (fun s => 10 * s.length) 50 "LLLLLLLLLL",
        10 * l.length ≤ 50 ∨ l.length ≤ 1) :=
  ⟨⟨by decide,
    (wrap_line_spec (fun s => 10 * s.length) 50 "aa bb").1 (by decide)⟩,
    ⟨by with_unfolding_all decide, by decide,
      (wrap_line_spec (fun s => 10 * s.length) 50 "LLLLLLLLLL").2.1
        (by with_unfolding_all decide) (by decide)⟩⟩

@[simp] theorem convert_width (img : Img) (m : Mode) : (img.convert m).width = img.width := rfl

@[simp] theorem convert_height (img : Img) (m : Mode) : (img.convert m).height = img.height := rfl

@[simp] theorem convert_mode (img : Img) (m : Mode) : (img.convert m).mode = m := rfl

@[simp] theorem resize_mode (img : Img) (tw th : ℕ) : (img.resize tw th).mode = img.mode := rfl

@[simp] theorem pasteAt_width (d s : Img) (x y : ℤ) : (d.pasteAt s x y).width = d.width := rfl

@[simp] theorem pasteAt_height (d s : Img) (x y : ℤ) : (d.pasteAt s x y).height = d.height := rfl

@[simp] theorem pasteAt_mode (d s : Img) (x y : ℤ) : (d.pasteAt s x y).mode = d.mode := rfl

@[simp] theorem pasteMaskAt_width (d s m : Img) (x y : ℤ) :
    (d.pasteMaskAt s m x y).width = d.width := rfl

@[simp] theorem pasteMaskAt_height (d s m : Img) (x y : ℤ) :
    (d.pasteMaskAt s m x y).height = d.height := rfl

@[simp] theorem pasteMaskAt_mode (d s m : Img) (x y : ℤ) :
    (d.pasteMaskAt s m x y).mode = d.mode := rfl

@[simp] theorem composite_width (a b m : Img) : (Image.composite a b m).width = b.width := rfl

@[simp] theorem composite_height (a b m : Img) : (Image.composite a b m).height = b.height := rfl

@[simp] theorem composite_mode (a b m : Img) : (Image.composite a b m).mode = b.mode := rfl

@[simp] theorem alphaCompositeAt_width (d s : Img) (x y : ℕ) :
    (d.alphaCompositeAt s x y).width = d.width := rfl

@[simp] theorem alphaCompositeAt_height (d s : Img) (x y : ℕ) :
    (d.alphaCompositeAt s x y).height = d.height := rfl

@[simp] theorem alphaCompositeAt_mode (d s : Img) (x y : ℕ) :
    (d.alphaCompositeAt s x y).mode = d.mode := rfl

@[simp] theorem alphaCompositeFull_width (a b : Img) :
    (Image.alphaCompositeFull a b).width = a.width := rfl

@[simp] theorem alphaCompositeFull_height (a b : Img) :
    (Image.alphaCompositeFull a b).height = a.height := rfl

@[simp] theorem alphaCompositeFull_mode (a b : Img) :
    (Image.alphaCompositeFull a b).mode = a.mode := rfl

@[simp] theorem blend_width (a b : Img) (q : ℚ) : (Image.blend a b q).width = a.width := rfl

@[simp] theorem blend_height (a b : Img) (q : ℚ) : (Image.blend a b q).height = a.height := rfl

@[simp] theorem blend_mode (a b : Img) (q : ℚ) : (Image.blend a b q).mode = a.mode := rfl

@[simp] theorem putalpha_width (a m : Img) : (a.putalpha m).width = a.width := rfl

@[simp] theorem putalpha_height (a m : Img) : (a.putalpha m).height = a.height := rfl

@[simp] theorem putalpha_mode (a m : Img) : (a.putalpha m).mode = Mode.RGBA := rfl

@[simp] theorem subtract_width (a b : Img) : (Image.subtract a b).width = a.width := rfl

@[simp] theorem subtract_height (a b : Img) : (Image.subtract a b).height = a.height := rfl

@[simp] theorem expand_width (a : Img) (b : ℕ) (f : Pixel) :
    (Image.expand a b f).width = a.width + 2 * b := rfl

@[simp] theorem expand_height (a : Img) (b : ℕ) (f : Pixel) :
    (Image.expand a b f).height = a.height + 2 * b := rfl

@[simp] theorem expand_mode (a : Img) (b : ℕ) (f : Pixel) :
    (Image.expand a b f).mode = a.mode := rfl

@[simp] theorem boxBlur_width (a : Img) (r : ℕ) : (a.boxBlur r).width = a.width := rfl

@[simp] theorem boxBlur_height (a : Img) (r : ℕ) : (a.boxBlur r).height = a.height := rfl

@[simp] theorem new_width (m : Mode) (w h : ℕ) (c : Pixel) : (Image.new m w h c).width = w := rfl

@[simp] theorem new_height (m : Mode) (w h : ℕ) (c : Pixel) : (Image.new m w h c).height = h := rfl

@[simp] theorem new_mode (m : Mode) (w h : ℕ) (c : Pixel) : (Image.new m w h c).mode = m := rfl

@[simp] theorem solid_color_logo_width (lg : Img) (c : ℕ × ℕ × ℕ) :
    (solid_color_logo lg c).width = lg.width := rfl

@[simp] theorem solid_color_logo_height (lg : Img) (c : ℕ × ℕ × ℕ) :
    (solid_color_logo lg c).height = lg.height := rfl

@[simp] theorem solid_color_logo_mode (lg : Img) (c : ℕ × ℕ × ℕ) :
    (solid_color_logo lg c).mode = Mode.RGBA := rfl

/-- Both branches of the matte/fade stage keep frame and mode. -/
theorem matteFadeStage_shape (base : Img) (mr fr : ℚ) :
    (matteFadeStage base mr fr).width = base.width ∧
    (matteFadeStage base mr fr).height = base.height ∧
    (matteFadeStage base mr fr).mode = base.mode := by
  simp only [matteFadeStage]
  split <;> simp

/-- The vignette keeps the frame and leaves an RGB image RGB. -/
theorem add_vignette_shape (img : Img) (s : ℚ) :
    (add_vignette img s).width = img.width ∧
    (add_vignette img s).height = img.height ∧
    (img.mode = Mode.RGB → (add_vignette img s).mode = Mode.RGB) := by
  simp only [add_vignette]
  split
  · exact ⟨rfl, rfl, fun h => h⟩
  · simp

/-- Grain keeps the frame and leaves an RGB image RGB. -/
theorem add_grain_shape (img : Img) (a : ℚ) (noise : ℕ → ℕ → ℤ) :
    (add_grain img a noise).width = img.width ∧
    (add_grain img a noise).height = img.height ∧
    (img.mode = Mode.RGB → (add_grain img a noise).mode = Mode.RGB) := by
  simp only [add_grain]
  split
  · exact ⟨rfl, rfl, fun h => h⟩
  · simp

/-- Cover-fit always produces the target frame and keeps the mode. -/
theorem resize_cover_shape (img : Img) (tw th : ℕ) (z : ℚ) :
    (resize_cover img tw th z).width = tw ∧
    (resize_cover img tw th z).height = th ∧
    (resize_cover img tw th z).mode = img.mode := by
  simp only [resize_cover]
  split
  · exact ⟨rfl, rfl, rfl⟩
  · refine ⟨?_, ?_, rfl⟩
    · rw [crop_width]; omega
    · rw [crop_height]; omega

@[simp] theorem matteFadeStage_width (base : Img) (mr fr : ℚ) :
    (matteFadeStage base mr fr).width = base.width := (matteFadeStage_shape base mr fr).1

@[simp] theorem matteFadeStage_height (base : Img) (mr fr : ℚ) :
    (matteFadeStage base mr fr).height = base.height := (matteFadeStage_shape base mr fr).2.1

@[simp] theorem matteFadeStage_mode (base : Img) (mr fr : ℚ) :
    (matteFadeStage base mr fr).mode = base.mode := (matteFadeStage_shape base mr fr).2.2

@[simp] theorem add_vignette_width (img : Img) (s : ℚ) :
    (add_vignette img s).width = img.width := (add_vignette_shape img s).1

@[simp] theorem add_vignette_height (img : Img) (s : ℚ) :
    (add_vignette img s).height = img.height := (add_vignette_shape img s).2.1

@[simp] theorem add_grain_width (img : Img) (a : ℚ) (n : ℕ → ℕ → ℤ) :
    (add_grain img a n).width = img.width := (add_grain_shape img a n).1

@[simp] theorem add_grain_height (img : Img) (a : ℚ) (n : ℕ → ℕ → ℤ) :
    (add_grain img a n).height = img.height := (add_grain_shape img a n).2.1

/-- The coerced base pipeline always yields the 2000×3000 RGBA canvas. -/
theorem basePipeline_shape (bg : Img) (noise : ℕ → ℕ → ℤ) (b : BaseOpts) :
    (basePipeline bg noise b).width = 2000 ∧
    (basePipeline bg noise b).height = 3000 ∧
    (basePipeline bg noise b).mode = Mode.RGBA := by
  simp only [basePipeline]
  refine ⟨?_, ?_, ?_⟩
  · split_ifs <;> simp
  · split_ifs <;> simp
  · simp

/-- A successful `build_base_poster` is always the 2000×3000 RGBA canvas. -/
theorem build_base_poster_ok_shape (bg : Img) (o : Options) (noise : ℕ → ℕ → ℤ)
    (img : Img) (h : build_base_poster bg o noise = .ok img) :
    img.width = 2000 ∧ img.height = 3000 ∧ img.mode = Mode.RGBA := by
  rw [build_base_poster] at h
  cases hp : parseBaseOpts o with
  | error e => rw [hp] at h; exact absurd h (by simp [Except.map])
  | ok b =>
    rw [hp] at h
    simp only [Except.map, Except.ok.injEq] at h
    subst h
    exact basePipeline_shape bg noise b

/-- A successful proportional logo placement keeps the canvas frame. -/
theorem placeLogoUniversal_ok_shape (canvas lg : Img) (sc off : ℚ) (out : Img)
    (h : placeLogoUniversal canvas lg sc off = .ok out) :
    out.width = canvas.width ∧ out.height = canvas.height ∧
      out.mode = canvas.mode := by
  simp only [placeLogoUniversal] at h
  split at h
  · simp only [Except.ok.injEq] at h
    subst h
    simp
  · exact absurd h (by simp)

/-- The text-layer pipeline returns an RGBA image in the canvas frame. -/
theorem textPipeline_shape (canvas : Img) (text : String) (t : TextOpts) :
    (textPipeline canvas text t).width = canvas.width ∧
    (textPipeline canvas text t).height = canvas.height ∧
    (textPipeline canvas text t).mode = Mode.RGBA := by
  simp only [textPipeline]
  simp

/-- A successful text overlay keeps the canvas frame; its mode is the
canvas's (blank text) or RGBA (a drawn layer). -/
theorem render_text_overlay_ok_shape (canvas : Img) (text : String) (o : Options)
    (out : Img) (h : render_text_overlay canvas text o = .ok out) :
    out.width = canvas.width ∧ out.height = canvas.height ∧
      (out.mode = canvas.mode ∨ out.mode = Mode.RGBA) := by
  rw [render_text_overlay] at h
  split at h
  · simp only [Except.ok.injEq] at h
    subst h
    exact ⟨rfl, rfl, Or.inl rfl⟩
  · cases hp : parseTextOpts o with
    | error e => rw [hp] at h; exact absurd h (by simp [Except.map])
    | ok t =>
      rw [hp] at h
      simp only [Except.map, Except.ok.injEq] at h
      subst h
      have H := textPipeline_shape canvas text t
      exact ⟨H.1, H.2.1, Or.inr H.2.2⟩

/-- A successful finishing step keeps the frame and returns RGB. -/
theorem finishUniversal_ok_shape (canvas0 : Img) (o : Options) (out : Img)
    (h : finishUniversal canvas0 o = .ok out) :
    out.mode = Mode.RGB ∧ out.width = canvas0.width ∧
      out.height = canvas0.height := by
  simp only [finishUniversal] at h
  split at h
  · cases hpx : getInt o "border_px" 0 with
    | error e => rw [hpx, exc_bind_error] at h; exact absurd h (by simp)
    | ok px =>
      rw [hpx, exc_bind_ok] at h
      cases hbc : getStrExc o "border_color" "#FFFFFF" with
      | error e => rw [hbc, exc_bind_error] at h; exact absurd h (by simp)
      | ok bc =>
        rw [hbc, exc_bind_ok] at h
        cases hcol : hex_to_rgb bc with
        | error e => rw [hcol, exc_bind_error] at h; exact absurd h (by simp)
        | ok col =>
          rw [hcol, exc_bind_ok] at h
          split at h
          · simp only [pure, Except.pure, Except.ok.injEq] at h
            subst h
            simp
          · simp only [pure, Except.pure, Except.ok.injEq] at h
            subst h
            simp
  · simp only [pure, Except.pure, Except.ok.injEq] at h
    subst h
    simp

theorem exc_bind_ok_iff {α β : Type} (e : Except String α)
    (k : α → Except String β) (b : β) :
    (e >>= k) = .ok b ↔ ∃ a, e = .ok a ∧ k a = .ok b := by
  cases e with
  | error s => rw [exc_bind_error]; simp
  | ok a => rw [exc_bind_ok]; simp

/-- The optional text-overlay step keeps the canvas frame; the mode stays
or becomes RGBA. -/
theorem text_step_ok_shape (canvas : Img) (o : Options) (c2 : Img)
    (h : (if getTruthy o "text_overlay_enabled" false then
        (if getStrPlain o "custom_text" "" ≠ "" then
          render_text_overlay canvas (getStrPlain o "custom_text" "") o
        else Except.ok canvas)
      else Except.ok canvas) = .ok c2) :
    c2.width = canvas.width ∧ c2.height = canvas.height ∧
      (c2.mode = canvas.mode ∨ c2.mode = Mode.RGBA) := by
  split at h
  · split at h
    · exact render_text_overlay_ok_shape canvas _ o c2 h
    · simp only [Except.ok.injEq] at h
      subst h
      exact ⟨rfl, rfl, Or.inl rfl⟩
  · simp only [Except.ok.injEq] at h
    subst h
    exact ⟨rfl, rfl, Or.inl rfl⟩

/-- C2 (amended): whenever `render_universal` returns an image it is RGB
at exactly 2000×3000; `render_uniform_logo`, however, returns its image
in RGBA (there is no final RGB conversion), at 2000×3000 only as long as
the border is not enabled — an enabled positive border expands the
canvas past 2000×3000. -/
theorem render_output_shape_spec (bg : Img) (logo : Option Img) (o : Options)
    (noise : ℕ → ℕ → ℤ) :
    (∀ img, render_universal bg logo o noise = .ok img →
      img.mode = Mode.RGB ∧ img.width = 2000 ∧ img.height = 3000) ∧
    (∀ img, render_uniform_logo bg logo o noise = .ok img →
      getTruthy o "border_enabled" false = false →
      img.mode = Mode.RGBA ∧ img.width = 2000 ∧ img.height = 3000) := by
  constructor
  · intro img h
    simp only [render_universal] at h
    rw [exc_bind_ok_iff] at h
    obtain ⟨base, hb, h⟩ := h
    have hbase := build_base_poster_ok_shape _ _ _ _ hb
    rw [exc_bind_ok_iff] at h
    obtain ⟨lo, hlo, h⟩ := h
    rw [exc_bind_ok_iff] at h
    obtain ⟨canvas, hcv, h⟩ := h
    rw [exc_bind_ok_iff] at h
    obtain ⟨canvas2, hts, h⟩ := h
    have hcanvas_shape : canvas.width = 2000 ∧ canvas.height = 3000 ∧
        canvas.mode = Mode.RGBA := by
      cases logo with
      | none =>
        simp only [Except.ok.injEq] at hcv
        subst hcv
        exact hbase
      | some lg0 =>
        dsimp only at hcv
        rw [exc_bind_ok_iff] at hcv
        obtain ⟨lg2, _, hcv⟩ := hcv
        have hsh := placeLogoUniversal_ok_shape _ _ _ _ _ hcv
        exact ⟨hsh.1.trans hbase.1, hsh.2.1.trans hbase.2.1, hsh.2.2.trans hbase.2.2⟩
    have hc2 := text_step_ok_shape canvas o canvas2 hts
    have hfin := finishUniversal_ok_shape canvas2 o img h
    exact ⟨hfin.1, hfin.2.1.trans (hc2.1.trans hcanvas_shape.1),
      hfin.2.2.trans (hc2.2.1.trans hcanvas_shape.2.1)⟩
  · intro img h hborder
    simp only [render_uniform_logo] at h
    rw [exc_bind_ok_iff] at h
    obtain ⟨canvas, hb, h⟩ := h
    have hbase := build_base_poster_ok_shape _ _ _ _ hb
    cases logo with
    | none =>
      simp only [Except.ok.injEq] at h
      subst h
      exact ⟨hbase.2.2, hbase.1, hbase.2.1⟩
    | some lg0 =>
      dsimp only at h
      rw [exc_bind_ok_iff] at h
      obtain ⟨lg2, _, h⟩ := h
      rw [exc_bind_ok_iff] at h
      obtain ⟨max_w, _, h⟩ := h
      rw [exc_bind_ok_iff] at h
      obtain ⟨max_h, _, h⟩ := h
      rw [exc_bind_ok_iff] at h
      obtain ⟨ox, _, h⟩ := h
      rw [exc_bind_ok_iff] at h
      obtain ⟨oy, _, h⟩ := h
      split at h
      · exact absurd h (by simp)
      · rw [exc_bind_ok_iff] at h
        obtain ⟨sc, _, h⟩ := h
        rw [exc_bind_ok_iff] at h
        obtain ⟨canvas3, hts, h⟩ := h
        have hc3 := text_step_ok_shape _ o canvas3 hts
        rw [hborder, if_neg Bool.false_ne_true] at h
        simp only [Except.ok.injEq] at h
        subst h
        simp only [pasteMaskAt_width, pasteMaskAt_height, pasteMaskAt_mode] at hc3
        refine ⟨?_, hc3.1.trans hbase.1, hc3.2.1.trans hbase.2.1⟩
        rcases hc3.2.2 with h3 | h3
        · exact h3.trans hbase.2.2
        · exact h3

/-- C2 counterexample: `render_uniform_logo` with the border enabled at
10 px returns a 2020×3020 RGBA image — neither RGB nor 2000×3000. -/
theorem render_uniform_logo_border_grows :
    (render_uniform_logo testBg (some testLogo)
        [("border_enabled", OptVal.boolean true), ("border_px", OptVal.num 10)]
        testNoise).map (fun i => (i.width, i.height, i.mode))
      = .ok (2020, 3020, Mode.RGBA) ∧
      ((2020, 3020, Mode.RGBA) : ℕ × ℕ × Mode) ≠ (2000, 3000, Mode.RGB) := by
  exact ⟨by with_unfolding_all rfl, by decide⟩

/-- C2 witness: the amended theorem applied to a concrete render with no
border — the universal output is RGB 2000×3000 and the uniform-logo
output is RGBA 2000×3000. -/
theorem render_output_shape_spec_witness :
    ((render_universal testBg none [] testNoise).map
        (fun i => (i.width, i.height, i.mode)) = .ok (2000, 3000, Mode.RGB)) ∧
    ((render_uniform_logo testBg none [] testNoise).map
        (fun i => (i.width, i.height, i.mode)) = .ok (2000, 3000, Mode.RGBA)) := by
  have H := render_output_shape_spec testBg none [] testNoise
  constructor
  · cases hu : render_universal testBg none [] testNoise with
    | error e =>
      have hok : (render_universal testBg none [] testNoise).isOk = true := by
        with_unfolding_all rfl
      rw [hu] at hok
      exact absurd hok (by simp [Except.isOk, Except.toBool])
    | ok img =>
      have hsh := H.1 img hu
      simp only [Except.map, hsh.1, hsh.2.1, hsh.2.2]
  · cases hu : render_uniform_logo testBg none [] testNoise with
    | error e =>
      have hok : (render_uniform_logo testBg none [] testNoise).isOk = true := by
        with_unfolding_all rfl
      rw [hu] at hok
      exact absurd hok (by simp [Except.isOk, Except.toBool])
    | ok img =>
      have hsh := H.2 img hu (by with_unfolding_all rfl)
      simp only [Except.map, hsh.1, hsh.2.1, hsh.2.2]
